import Mathlib

/-!
Verification of the per-connection protocol core of a STOMP message broker.

The definitions below are a shallow embedding of the source:
the frame model and its header parsers (`message` package),
and the per-connection session engine (`server/client` package:
`conn.go`, `subscription_list.go`).  Components of the repository that
are referenced but whose sources are not available (the `Headers`
collection, the transaction store, the `Subscription` struct and the
error values of the `client` package) are modelled from the
specification, as marked in their doc comments.
-/

namespace Stomp

/-! ## Headers -/

/-- Modelled from the spec: headers are an ordered multimap by name;
when multiple values share a name the first is canonical for lookup.
`hdrContains` models `Headers.Contains`: value of the first entry with
the given name, or `none`. -/
def hdrContains : List (String × String) → String → Option String
  | [], _ => none
  | (n, v) :: rest, k => if n = k then some v else hdrContains rest k

/-- Modelled from the spec: `Headers.Remove` deletes the entries with
the given name, so the frame no longer contains that header. -/
def hdrRemove : List (String × String) → String → List (String × String)
  | [], _ => []
  | (n, v) :: rest, k =>
    if n = k then hdrRemove rest k else (n, v) :: hdrRemove rest k

/-- Modelled from the spec: `Headers.Append` adds an entry at the end. -/
def hdrAppend (hs : List (String × String)) (k v : String) : List (String × String) :=
  hs ++ [(k, v)]

/-- Modelled from the spec: `Headers.Set` makes the header hold exactly
the given value: existing entries with the name are dropped and the new
entry added. -/
def hdrSet (hs : List (String × String)) (k v : String) : List (String × String) :=
  hdrAppend (hdrRemove hs k) k v

/-! ## Frame -/

/-- A single STOMP frame: command, ordered headers, body. -/
structure Frame where
  command : String
  headers : List (String × String)
  body : List Nat := []
deriving DecidableEq

def Frame.Contains (f : Frame) (k : String) : Option String :=
  hdrContains f.headers k

def Frame.Remove (f : Frame) (k : String) : Frame :=
  { f with headers := hdrRemove f.headers k }

def Frame.Set (f : Frame) (k v : String) : Frame :=
  { f with headers := hdrSet f.headers k v }

def Frame.Append (f : Frame) (k v : String) : Frame :=
  { f with headers := hdrAppend f.headers k v }

/-- Models `message.NewFrame`: a frame with the given command whose
headers are appended in order; the body is empty. -/
def NewFrame (command : String) (hs : List (String × String)) : Frame :=
  { command := command, headers := hs, body := [] }

/-! ## Command and header name constants (message package) -/

def CONNECT : String := "CONNECT"
def STOMP : String := "STOMP"
def CONNECTED : String := "CONNECTED"
def SEND : String := "SEND"
def SUBSCRIBE : String := "SUBSCRIBE"
def UNSUBSCRIBE : String := "UNSUBSCRIBE"
def ACK : String := "ACK"
def NACK : String := "NACK"
def BEGIN : String := "BEGIN"
def COMMIT : String := "COMMIT"
def ABORT : String := "ABORT"
def DISCONNECT : String := "DISCONNECT"
def MESSAGE : String := "MESSAGE"
def RECEIPT : String := "RECEIPT"
def ERROR : String := "ERROR"

/-- The STOMP command vocabulary (the `CommandTag` set of the spec). -/
def stompCommands : List String :=
  [CONNECT, STOMP, CONNECTED, SEND, SUBSCRIBE, UNSUBSCRIBE, ACK, NACK,
   BEGIN, COMMIT, ABORT, DISCONNECT, MESSAGE, RECEIPT, ERROR]

/-- Modelled from the spec: header name constants of the message package. -/
def hContentLength : String := "content-length"
def hAcceptVersion : String := "accept-version"
def hHeartBeat : String := "heart-beat"
def hHost : String := "host"
def hLogin : String := "login"
def hPasscode : String := "passcode"
def hReceipt : String := "receipt"
def hReceiptId : String := "receipt-id"
def hTransaction : String := "transaction"
def hDestination : String := "destination"
def hId : String := "id"
def hAck : String := "ack"
def hMessageId : String := "message-id"
def hSubscription : String := "subscription"
def hVersion : String := "version"
def hServer : String := "server"
def hMessage : String := "message"

/-! ## Versions and errors -/

/-- The recognized STOMP protocol versions. -/
inductive StompVersion where
  | V1_0
  | V1_1
  | V1_2
deriving DecidableEq

def StompVersion.toStr : StompVersion → String
  | .V1_0 => "1.0"
  | .V1_1 => "1.1"
  | .V1_2 => "1.2"

/-- The error kinds of the message and client packages (spec section 7).
`missingHeaderGeneric` models the client package's unnamed missing-header
error value; `parseUintFailed` models a `strconv.ParseUint` error;
`txAlreadyInProgress` and `txUnknown` model the transaction store errors;
`fuelExhausted` is a technical bound on commit-replay recursion depth
(the recursion is bounded in the program because only SEND frames are
ever stored in a transaction). -/
inductive Err where
  | invalidCommand
  | unknownCommand
  | unexpectedCommand
  | notConnected
  | notConnectFrame
  | missingHeader (name : String)
  | missingHeaderGeneric
  | unknownVersion
  | invalidHeartBeat
  | exceededMaxFrameSize
  | receiptInConnect
  | authenticationFailed
  | invalidOperationForFrame
  | parseUintFailed
  | txAlreadyInProgress
  | txUnknown
  | fuelExhausted
deriving DecidableEq

/-! ## String helpers: splitting, digits, byte-lexicographic order -/

/-- Models Go `strings.Split` with a one-character separator, on the
character list: `splitChar sep l` cuts `l` at every occurrence of `sep`. -/
def splitChar (sep : Char) : List Char → List (List Char)
  | [] => [[]]
  | c :: rest =>
    match splitChar sep rest with
    | [] => [[]]
    | h :: t => if c = sep then [] :: h :: t else (c :: h) :: t

/-- `strings.Split(s, ",")`. -/
def splitOnComma (s : String) : List String :=
  (splitChar ',' s.data).map String.mk

/-- Decimal digit test (models the `[0-9]` character class). -/
def isDigitCh (c : Char) : Bool :=
  Nat.ble 48 c.toNat && Nat.ble c.toNat 57

/-- Numeric value of a decimal digit string. -/
def digitsToNat (l : List Char) : Nat :=
  l.foldl (fun a c => a * 10 + (c.toNat - 48)) 0

/-- Byte-lexicographic comparison of strings as performed by Go's
`sort.Strings`, on character lists. -/
def charListLe : List Char → List Char → Bool
  | [], _ => true
  | _ :: _, [] => false
  | a :: as, b :: bs =>
    if a.toNat < b.toNat then true
    else if b.toNat < a.toNat then false
    else charListLe as bs

/-- Lexicographic order on strings (Go string comparison). -/
def strLe (a b : String) : Prop := charListLe a.data b.data = true

instance : DecidableRel strLe := fun a b =>
  inferInstanceAs (Decidable (charListLe a.data b.data = true))

/-! ## Frame parsers: ContentLength, AcceptVersion, HeartBeat -/

/-- Maximum content length allowed, 16 MiB (`message.MaxContentLength`). -/
def MaxContentLength : Nat := 16 * 1024 * 1024

/-- Models `strconv.ParseUint(s, 10, bitSize)`: a non-empty all-digit
string whose value fits in `bitSize` bits; otherwise an error (`none`). -/
def parseUint (bitSize : Nat) (s : String) : Option Nat :=
  if s.data.isEmpty || !(s.data.all isDigitCh) then none
  else
    let v := digitsToNat s.data
    if v < 2 ^ bitSize then some v else none

/-- Models `Frame.ContentLength`: returns (contentLength, ok, err) exactly
as the Go named return values. -/
def Frame.ContentLength (f : Frame) : Nat × Bool × Option Err :=
  match f.Contains hContentLength with
  | none => (0, false, none)
  | some text =>
    match parseUint 32 text with
    | none => (0, false, some Err.parseUintFailed)
    | some value =>
      if value > MaxContentLength then (0, false, some Err.exceededMaxFrameSize)
      else (value, true, none)

/-- The version recognized for one `accept-version` entry (the switch in
`Frame.AcceptVersion`). -/
def recognizedOf (s : String) : Option StompVersion :=
  if s = "1.0" then some StompVersion.V1_0
  else if s = "1.1" then some StompVersion.V1_1
  else if s = "1.2" then some StompVersion.V1_2
  else none

/-- The scan over the sorted version list: each recognized entry
overwrites the accumulator, so the last recognized entry wins. -/
def versionScan : Except Err StompVersion → List String → Except Err StompVersion
  | acc, [] => acc
  | acc, v :: rest =>
    versionScan (match recognizedOf v with
                 | some ver => Except.ok ver
                 | none => acc) rest

/-- Models `Frame.AcceptVersion`: split the header on commas, sort the
entries lexicographically, scan keeping the last recognized version. -/
def Frame.AcceptVersion (f : Frame) : Except Err StompVersion :=
  if f.command ≠ CONNECT ∧ f.command ≠ STOMP then Except.error Err.notConnectFrame
  else
    match f.Contains hAcceptVersion with
    | some av =>
      versionScan (Except.error Err.unknownVersion)
        (List.insertionSort strLe (splitOnComma av))
    | none =>
      if f.command = CONNECT then Except.ok StompVersion.V1_0
      else Except.error (Err.missingHeader hAcceptVersion)

/-- The lexicographically greatest element of `x :: xs` under Go string
comparison. -/
def lexMaxStr (x : String) (xs : List String) : String :=
  xs.foldl (fun a w => if charListLe a.data w.data then w else a) x

/-- The lexicographically greatest recognized version among the entries,
if any entry is recognized. -/
def lexGreatestRecognized (entries : List String) : Option StompVersion :=
  match entries.filter (fun w => (recognizedOf w).isSome) with
  | [] => none
  | x :: xs => recognizedOf (lexMaxStr x xs)

/-- The spec's description of `AcceptVersion`: the lexicographically
greatest recognized version of the `accept-version` list; absent header
defaults to V1.0 for CONNECT and is an error for STOMP; a header with no
recognized version is an error; any other command is an error. -/
def acceptVersionSpec (f : Frame) : Except Err StompVersion :=
  if f.command ≠ CONNECT ∧ f.command ≠ STOMP then Except.error Err.notConnectFrame
  else
    match f.Contains hAcceptVersion with
    | some av =>
      match lexGreatestRecognized (splitOnComma av) with
      | some ver => Except.ok ver
      | none => Except.error Err.unknownVersion
    | none =>
      if f.command = CONNECT then Except.ok StompVersion.V1_0
      else Except.error (Err.missingHeader hAcceptVersion)

/-- The combined outcome of scanning a version list whose recognized
entries are drawn from `{"1.0", "1.1", "1.2"}`: the greatest present
version, or the accumulator when none is present.  Used to relate the
source's sort-and-scan to the specification's lexicographic maximum. -/
def chainOf (l : List String) (acc : Except Err StompVersion) :
    Except Err StompVersion :=
  if "1.2" ∈ l then Except.ok StompVersion.V1_2
  else if "1.1" ∈ l then Except.ok StompVersion.V1_1
  else if "1.0" ∈ l then Except.ok StompVersion.V1_0
  else acc

/-- The heart-beat header regular expression `^[0-9]{1,9},[0-9]{1,9}$`,
one field: one to nine decimal digits. -/
def hbFieldOk (l : List Char) : Bool :=
  Nat.ble 1 l.length && Nat.ble l.length 9 && l.all isDigitCh

/-- Whether a heart-beat header value matches the regular expression. -/
def heartBeatMatch (s : String) : Bool :=
  match splitChar ',' s.data with
  | [a, b] => hbFieldOk a && hbFieldOk b
  | _ => false

/-- Models `Frame.HeartBeat`: only valid on CONNECT, STOMP and CONNECTED
frames; the header must match the regular expression; an absent header
yields `(0, 0)`. -/
def Frame.HeartBeat (f : Frame) : Except Err (Nat × Nat) :=
  if f.command ≠ CONNECT ∧ f.command ≠ STOMP ∧ f.command ≠ CONNECTED then
    Except.error Err.invalidOperationForFrame
  else
    match f.Contains hHeartBeat with
    | some hb =>
      if heartBeatMatch hb then
        match splitChar ',' hb.data with
        | [a, b] => Except.ok (digitsToNat a, digitsToNat b)
        | _ => Except.ok (0, 0)
      else Except.error Err.invalidHeartBeat
    | none => Except.ok (0, 0)

/-! ## Frame validation -/

/-- Models `verifyRequiredHeaders`: the first missing header name yields
a `missingHeader` error. -/
def verifyRequiredHeaders (f : Frame) : List String → Option Err
  | [] => none
  | n :: rest =>
    if (f.Contains n).isNone then some (Err.missingHeader n)
    else verifyRequiredHeaders f rest

/-- Models `validateConnect`: version negotiation must succeed; V1.0 has
no mandatory headers; later versions require `host`, and a present
heart-beat header must match the regular expression. -/
def Frame.validateConnect (f : Frame) : Option Err :=
  match f.AcceptVersion with
  | Except.error e => some e
  | Except.ok ver =>
    if ver = StompVersion.V1_0 then none
    else
      match verifyRequiredHeaders f [hHost] with
      | some e => some e
      | none =>
        match f.Contains hHeartBeat with
        | some hb => if heartBeatMatch hb then none else some Err.invalidHeartBeat
        | none => none

/-- Models `Frame.Validate`: per-command required headers. -/
def Frame.Validate (f : Frame) : Option Err :=
  if f.command = CONNECT ∨ f.command = STOMP then f.validateConnect
  else if f.command = CONNECTED then none
  else if f.command = SEND then verifyRequiredHeaders f [hDestination]
  else if f.command = SUBSCRIBE then verifyRequiredHeaders f [hDestination, hId]
  else if f.command = UNSUBSCRIBE then verifyRequiredHeaders f [hId]
  else if f.command = ACK then verifyRequiredHeaders f [hId]
  else if f.command = NACK then verifyRequiredHeaders f [hId]
  else if f.command = BEGIN then verifyRequiredHeaders f [hTransaction]
  else if f.command = COMMIT then verifyRequiredHeaders f [hTransaction]
  else if f.command = ABORT then verifyRequiredHeaders f [hTransaction]
  else if f.command = DISCONNECT then none
  else if f.command = MESSAGE then
    verifyRequiredHeaders f [hDestination, hMessageId, hSubscription]
  else if f.command = RECEIPT then verifyRequiredHeaders f [hReceiptId]
  else if f.command = ERROR then none
  else some Err.invalidCommand

/-! ## Subscriptions and the pending-ack list (server/client) -/

/-- Modelled from the spec: per-subscription acknowledgement policy. -/
inductive AckMode where
  | auto
  | client
  | clientIndividual
deriving DecidableEq

/-- Modelled from the spec: a subscription `{id, destination, ack, frame}`;
`subList` models the back-pointer from the subscription to the pending-ack
list it is attached to (`true` = attached to a list). -/
structure Subscription where
  id : String
  dest : String
  ack : AckMode
  frame : Option Frame := none
  subList : Bool := false
deriving DecidableEq

/-- Models `SubscriptionList.Add`: panics (modelled by `none`) when the
subscription's back-pointer is already set, otherwise pushes it to the
back of the list and sets the back-pointer. -/
def slAdd (sl : List Subscription) (sub : Subscription) : Option (List Subscription) :=
  if sub.subList then none
  else some (sl ++ [{ sub with subList := true }])

/-- Models `SubscriptionList.Get`: pops the front subscription, clearing
its back-pointer; `none` when the list is empty. -/
def slGet : List Subscription → Option (Subscription × List Subscription)
  | [] => none
  | s :: rest => some ({ s with subList := false }, rest)

/-- Models `SubscriptionList.Remove`: removes the first matching
subscription and clears its back-pointer; returns the removed
subscription alongside the new list. -/
def slRemove : List Subscription → Subscription → List Subscription × Option Subscription
  | [], _ => ([], none)
  | x :: rest, s =>
    if x = s then (rest, some { x with subList := false })
    else
      let (r, found) := slRemove rest s
      (x :: r, found)

/-- Models `SubscriptionList.FindByIdAndRemove`: removes the first
subscription with the given id and returns it.  Note that the source
does not clear the removed subscription's back-pointer here. -/
def slFindByIdAndRemove : List Subscription → String → Option Subscription × List Subscription
  | [], _ => (none, [])
  | x :: rest, i =>
    if x.id = i then (some x, rest)
    else
      let (found, r) := slFindByIdAndRemove rest i
      (found, x :: r)

/-! ## Transaction store -/

/-- Modelled from the spec: the transaction store maps transaction ids to
the ordered list of frames pending commit. -/
abbrev TxStore := List (String × List Frame)

def txExists (ts : TxStore) (id : String) : Bool :=
  ts.any (fun p => p.1 == id)

/-- Modelled from the spec: `Begin(id)` fails if `id` already exists. -/
def txBegin (ts : TxStore) (id : String) : Except Err TxStore :=
  if txExists ts id then Except.error Err.txAlreadyInProgress
  else Except.ok (ts ++ [(id, [])])

def txAppend : TxStore → String → Frame → TxStore
  | [], _, _ => []
  | (i, fs) :: rest, id, f =>
    if i == id then (i, fs ++ [f]) :: rest else (i, fs) :: txAppend rest id f

/-- Modelled from the spec: `Add(id, frame)` fails if `id` does not
exist; the `transaction` header is stripped from the frame before
storage.  Returns the new store and the frame as stored. -/
def txAdd (ts : TxStore) (id : String) (f : Frame) : Except Err (TxStore × Frame) :=
  if txExists ts id then
    let stored := f.Remove hTransaction
    Except.ok (txAppend ts id stored, stored)
  else Except.error Err.txUnknown

/-- Modelled from the spec: `Abort(id)` removes the entry, failing if it
is absent. -/
def txAbort (ts : TxStore) (id : String) : Except Err TxStore :=
  if txExists ts id then Except.ok (ts.filter (fun p => !(p.1 == id)))
  else Except.error Err.txUnknown

/-- The frames stored under a transaction id. -/
def txFrames : TxStore → String → List Frame
  | [], _ => []
  | (i, fs) :: rest, id => if i == id then fs else txFrames rest id

/-- Removing a transaction entry (the removal half of `Commit`). -/
def txDelete (ts : TxStore) (id : String) : TxStore :=
  ts.filter (fun p => !(p.1 == id))

/-- Modelled from the spec: `Init()` discards all transactions. -/
def txInit (_ : TxStore) : TxStore := []

/-! ## Session engine: requests, events, handlers -/

/-- The requests a connection sends to the upper layer: the operation
vocabulary of the request channel. -/
inductive Request where
  | enqueue (f : Frame)
  | subscribed (sub : Subscription)
  | unsubscribe (sub : Subscription)
  | requeue (f : Option Frame)
  | disconnected
deriving DecidableEq

/-- The observable effects of the session engine, in order:
`wire f` is a frame written directly to the client socket, `req r` a
request sent to the upper layer, `store tx f` a frame appended to the
transaction store, `queuedWrite f` a frame pushed onto the session's own
write channel (to be written to the client later). -/
inductive Event where
  | wire (f : Frame)
  | req (r : Request)
  | store (tx : String) (f : Frame)
  | queuedWrite (f : Frame)
deriving DecidableEq

/-- Models `sendReceiptImmediately`: if the frame has a `receipt` header,
the header is removed and a RECEIPT frame with the matching `receipt-id`
is written to the client. -/
def sendReceiptImmediately (f : Frame) : Frame × List Event :=
  match f.Contains hReceipt with
  | some receipt =>
    (f.Remove hReceipt, [Event.wire (NewFrame RECEIPT [(hReceiptId, receipt)])])
  | none => (f, [])

/-- Models `handleDisconnect`: send the receipt, if requested, and
nothing else; the handler returns without error. -/
def handleDisconnect (f : Frame) : List Event :=
  (sendReceiptImmediately f).2

/-- Models `handleBegin`: receipt first, then `txStore.Begin`. -/
def handleBegin (ts : TxStore) (f : Frame) : Except Err (TxStore × List Event) :=
  match f.Contains hTransaction with
  | some tx =>
    match txBegin ts tx with
    | Except.ok ts' => Except.ok (ts', (sendReceiptImmediately f).2)
    | Except.error e => Except.error e
  | none => Except.error Err.missingHeaderGeneric

/-- Models `handleAbort`: receipt first, then `txStore.Abort`. -/
def handleAbort (ts : TxStore) (f : Frame) : Except Err (TxStore × List Event) :=
  match f.Contains hTransaction with
  | some tx =>
    match txAbort ts tx with
    | Except.ok ts' => Except.ok (ts', (sendReceiptImmediately f).2)
    | Except.error e => Except.error e
  | none => Except.error Err.missingHeaderGeneric

/-- Models `handleSend`: receipt first; a frame with a `transaction`
header is added to the transaction store (the header stripped),
otherwise the frame is forwarded to the upper layer as `Enqueue`. -/
def handleSend (ts : TxStore) (f : Frame) : Except Err (TxStore × List Event) :=
  match (sendReceiptImmediately f).1.Contains hTransaction with
  | some tx =>
    match txAdd ts tx (sendReceiptImmediately f).1 with
    | Except.ok (ts', stored) =>
      Except.ok (ts', (sendReceiptImmediately f).2 ++ [Event.store tx stored])
    | Except.error e => Except.error e
  | none =>
    Except.ok (ts, (sendReceiptImmediately f).2
      ++ [Event.req (Request.enqueue (sendReceiptImmediately f).1)])

/-- Models `sendFrameRequest`: receipt first, then forward the frame to
the upper layer as `Enqueue`. -/
def sendFrameRequest (ts : TxStore) (f : Frame) : Except Err (TxStore × List Event) :=
  Except.ok (ts, (sendReceiptImmediately f).2
    ++ [Event.req (Request.enqueue (sendReceiptImmediately f).1)])

def handleSubscribe (ts : TxStore) (f : Frame) : Except Err (TxStore × List Event) :=
  sendFrameRequest ts f

def handleUnsubscribe (ts : TxStore) (f : Frame) : Except Err (TxStore × List Event) :=
  sendFrameRequest ts f

def handleAck (ts : TxStore) (f : Frame) : Except Err (TxStore × List Event) :=
  sendFrameRequest ts f

def handleNack (ts : TxStore) (f : Frame) : Except Err (TxStore × List Event) :=
  sendFrameRequest ts f

/-- The commit replay loop of `txStore.Commit`: each stored frame is fed
back through the state dispatch function in insertion order,
short-circuiting on the first error. -/
def replayWith (step : TxStore → Frame → Except Err (TxStore × List Event)) :
    TxStore → List Frame → Except Err (TxStore × List Event)
  | ts, [] => Except.ok (ts, [])
  | ts, g :: gs =>
    match step ts g with
    | Except.error e => Except.error e
    | Except.ok (ts', evs) =>
      match replayWith step ts' gs with
      | Except.error e => Except.error e
      | Except.ok (ts'', evs') => Except.ok (ts'', evs ++ evs')

/-- Models `handleCommit`, parameterized by the state dispatch function
used for the replay: receipt first, then the transaction entry is
removed and its frames replayed. -/
def handleCommit (step : TxStore → Frame → Except Err (TxStore × List Event))
    (ts : TxStore) (f : Frame) : Except Err (TxStore × List Event) :=
  match f.Contains hTransaction with
  | some tx =>
    if txExists ts tx then
      match replayWith step (txDelete ts tx) (txFrames ts tx) with
      | Except.ok (ts', evs') => Except.ok (ts', (sendReceiptImmediately f).2 ++ evs')
      | Except.error e => Except.error e
    else Except.error Err.txUnknown
  | none => Except.error Err.missingHeaderGeneric

/-- The per-command dispatch of the `connected` state function of
`conn.go`, with the COMMIT case abstracted (it is the only recursive
one: commit replays stored frames through the state function). -/
def connectedBody (commit : TxStore → Frame → Except Err (TxStore × List Event))
    (ts : TxStore) (f : Frame) : Except Err (TxStore × List Event) :=
  if f.command = CONNECT ∨ f.command = STOMP then Except.error Err.unexpectedCommand
  else if f.command = DISCONNECT then Except.ok (ts, handleDisconnect f)
  else if f.command = BEGIN then handleBegin ts f
  else if f.command = ABORT then handleAbort ts f
  else if f.command = COMMIT then commit ts f
  else if f.command = SEND then handleSend ts f
  else if f.command = SUBSCRIBE then handleSubscribe ts f
  else if f.command = UNSUBSCRIBE then handleUnsubscribe ts f
  else if f.command = ACK then handleAck ts f
  else if f.command = NACK then handleNack ts f
  else if f.command = MESSAGE ∨ f.command = RECEIPT ∨ f.command = ERROR then
    Except.error Err.unexpectedCommand
  else Except.error Err.unknownCommand

/-- Models the `connected` state function: the per-command dispatch of
`conn.go`.  The fuel bounds the commit-replay recursion depth; the
program's own recursion is bounded because only SEND frames (already
stripped of their `transaction` header) are ever stored. -/
def connectedStep (fuel : Nat) : TxStore → Frame → Except Err (TxStore × List Event) :=
  Nat.rec (motive := fun _ => TxStore → Frame → Except Err (TxStore × List Event))
    (connectedBody (fun _ _ => Except.error Err.fuelExhausted))
    (fun _ prev => connectedBody (handleCommit prev)) fuel

/-! ## Connection setup -/

/-- The per-connection configuration: the authentication decision and the
server's minimum heart-beat period in milliseconds (the
`asMilliseconds(config.HeartBeat(), MaxHeartBeat)` value). -/
structure Config where
  authenticate : Option String → Option String → Bool
  minHeartBeatMs : Nat

/-- The session data established by a successful CONNECT: negotiated
version, heart-beat read and write intervals in milliseconds, and the
CONNECTED response frame. -/
structure ConnectedSession where
  version : StompVersion
  readTimeoutMs : Nat
  writeTimeoutMs : Nat
  response : Frame
deriving DecidableEq

/-- Models `handleConnect`: reject a `receipt` header; authenticate;
negotiate the version; parse the heart-beat and clamp each non-zero value
up to the server minimum; reply with a CONNECTED frame whose `heart-beat`
header swaps the two values. -/
def handleConnect (cfg : Config) (f : Frame) : Except Err ConnectedSession :=
  if (f.Contains hReceipt).isSome then Except.error Err.receiptInConnect
  else if !(cfg.authenticate (f.Contains hLogin) (f.Contains hPasscode)) then
    Except.error Err.authenticationFailed
  else
    match f.AcceptVersion with
    | Except.error e => Except.error e
    | Except.ok version =>
      match f.HeartBeat with
      | Except.error e => Except.error e
      | Except.ok (cx0, cy0) =>
        let m := cfg.minHeartBeatMs
        let cx := if cx0 > 0 ∧ cx0 < m then m else cx0
        let cy := if cy0 > 0 ∧ cy0 < m then m else cy0
        Except.ok
          { version := version
            readTimeoutMs := cx
            writeTimeoutMs := cy
            response :=
              NewFrame CONNECTED
                [(hVersion, version.toStr), (hServer, "stompd/x.y.z"),
                 (hHeartBeat, Nat.repr cy ++ "," ++ Nat.repr cx)] }

/-- Models the `connecting` state function: only CONNECT and STOMP are
accepted; anything else yields `notConnected`. -/
def connectingStep (cfg : Config) (f : Frame) : Except Err ConnectedSession :=
  if f.command = CONNECT ∨ f.command = STOMP then handleConnect cfg f
  else Except.error Err.notConnected

/-! ## The processing loop -/

/-- Modelled from the spec: the text of the `message` header of an ERROR
frame for each error kind.  The exact strings are immaterial to the
claims. -/
def errText : Err → String
  | Err.invalidCommand => "invalid command"
  | Err.unknownCommand => "unknown command"
  | Err.unexpectedCommand => "unexpected command"
  | Err.notConnected => "not connected"
  | Err.notConnectFrame => "not a connect frame"
  | Err.missingHeader name => "missing header: " ++ name
  | Err.missingHeaderGeneric => "missing header"
  | Err.unknownVersion => "unknown version"
  | Err.invalidHeartBeat => "invalid heart-beat"
  | Err.exceededMaxFrameSize => "exceeded max frame size"
  | Err.receiptInConnect => "receipt header not allowed in CONNECT"
  | Err.authenticationFailed => "authentication failed"
  | Err.invalidOperationForFrame => "invalid operation for frame"
  | Err.parseUintFailed => "invalid syntax"
  | Err.txAlreadyInProgress => "transaction already in progress"
  | Err.txUnknown => "transaction unknown"
  | Err.fuelExhausted => "fuel exhausted"

/-- Models `sendErrorImmediately`: an ERROR frame carrying the error
message, with a `receipt-id` header when the offending frame had a
`receipt` header. -/
def errorFrameFor (e : Err) (f : Frame) : Frame :=
  let base := NewFrame ERROR [(hMessage, errText e)]
  match f.Contains hReceipt with
  | some r => base.Append hReceiptId r
  | none => base

/-- The connection state the processing loop dispatches on. -/
inductive ConnMode where
  | connecting
  | connected
deriving DecidableEq

/-- The outcome of handling one inbound frame in `processLoop`:
`cont` means the loop keeps running with the new state, `halt` means the
loop returns (the session terminates and cleanup follows).  The events
are the observable effects, in order. -/
inductive StepResult where
  | cont (mode : ConnMode) (ts : TxStore) (evs : List Event)
  | halt (evs : List Event)
deriving DecidableEq

/-- Models the inbound-frame branch of `processLoop`: validate the frame,
dispatch to the current state function; an error from either sends an
ERROR frame immediately and terminates the loop; otherwise the loop
continues.  A successful CONNECT pushes the CONNECTED response onto the
session's write channel and moves to the connected state. -/
def processInbound (cfg : Config) (fuel : Nat) (mode : ConnMode) (ts : TxStore)
    (f : Frame) : StepResult :=
  match f.Validate with
  | some e => StepResult.halt [Event.wire (errorFrameFor e f)]
  | none =>
    match mode with
    | ConnMode.connecting =>
      match connectingStep cfg f with
      | Except.ok s => StepResult.cont ConnMode.connected ts [Event.queuedWrite s.response]
      | Except.error e => StepResult.halt [Event.wire (errorFrameFor e f)]
    | ConnMode.connected =>
      match connectedStep fuel ts f with
      | Except.ok (ts', evs) => StepResult.cont ConnMode.connected ts' evs
      | Except.error e => StepResult.halt [Event.wire (errorFrameFor e f)]

/-! ## Message-id allocation and subscription deliveries -/

/-- The number of values of Go's `uint64`: the session's `lastMsgId`
counter (declared `uint64` in conn.go) wraps at this modulus. -/
def uint64Card : Nat := 2 ^ 64

/-- Models `allocateMessageId`: a MESSAGE frame gets `message-id` from the
incremented counter (a `uint64`, so the increment wraps at `2 ^ 64`); with
ack mode `auto` the `ack` header is removed, otherwise it is set to the
message-id.  When the subscription is nil (`none`) the source dereferences
`sub.ack` on a nil pointer and panics, modelled by `none`.  Non-MESSAGE
frames are left untouched. -/
def allocateMessageId (f : Frame) (sub : Option Subscription) (lastMsgId : Nat) :
    Option (Frame × Nat) :=
  if f.command = MESSAGE then
    let newId := (lastMsgId + 1) % uint64Card
    let f' := f.Set hMessageId (Nat.repr newId)
    match sub with
    | none => none
    | some s =>
      if s.ack = AckMode.auto then some (f'.Remove hAck, newId)
      else some (f'.Set hAck (Nat.repr newId), newId)
  else some (f, lastMsgId)

/-- Models the write-channel branch of `processLoop`: the frame taken from
the fire-and-forget queue goes through `allocateMessageId` with a nil
subscription and is then written to the client.  `none` models a panic. -/
def writeChannelStep (lastMsgId : Nat) (f : Frame) : Option (Nat × Frame) :=
  match allocateMessageId f none lastMsgId with
  | none => none
  | some (f', id') => some (id', f')

/-- The session state touched by subscription deliveries: the message-id
counter and the pending-ack list. -/
structure SessState where
  lastMsgId : Nat
  pending : List Subscription
deriving DecidableEq

/-- Models the subscription-delivery branch of `processLoop`: allocate the
message-id on the subscription's frame, write the frame to the client;
an `auto` subscription is reported to the upper layer as delivered,
any other subscription is pushed onto the pending-ack list.
`none` models a panic (nil frame, nil subscription dereference, or a
subscription already attached to a pending-ack list). -/
def deliverSub (st : SessState) (sub : Subscription) : Option (SessState × List Event) :=
  match sub.frame with
  | none => none
  | some f =>
    match allocateMessageId f (some sub) st.lastMsgId with
    | none => none
    | some (f', id') =>
      let sub' := { sub with frame := some f' }
      if sub.ack = AckMode.auto then
        some ({ st with lastMsgId := id' },
              [Event.wire f', Event.req (Request.subscribed sub')])
      else
        match slAdd st.pending sub' with
        | none => none
        | some p' => some ({ lastMsgId := id', pending := p' }, [Event.wire f'])

/-- A sequence of subscription deliveries processed by one session. -/
def runDeliveries (st : SessState) : List Subscription → Option (SessState × List Event)
  | [] => some (st, [])
  | sub :: rest =>
    match deliverSub st sub with
    | none => none
    | some (st', evs) =>
      match runDeliveries st' rest with
      | none => none
      | some (st'', evs') => some (st'', evs ++ evs')

/-- The MESSAGE frame as delivered to the client when the counter hands
out message-id `n`: `message-id` set to `n`, and the `ack` header removed
(ack mode `auto`) or set to `n` (other modes). -/
def expectedDelivery (n : Nat) (sub : Subscription) : Frame :=
  match sub.frame with
  | none => { command := "", headers := [], body := [] }
  | some f =>
    let f' := f.Set hMessageId (Nat.repr n)
    if sub.ack = AckMode.auto then f'.Remove hAck else f'.Set hAck (Nat.repr n)

/-- The event trace of a delivery sequence started at counter value `n`:
the i-th delivery carries message-id `(n + i + 1) % 2 ^ 64` — the counter
wraps like the source's `uint64`. -/
def expectedEvents (n : Nat) : List Subscription → List Event
  | [] => []
  | sub :: rest =>
    let f' := expectedDelivery ((n + 1) % uint64Card) sub
    (if sub.ack = AckMode.auto then
       [Event.wire f', Event.req (Request.subscribed { sub with frame := some f' })]
     else [Event.wire f'])
      ++ expectedEvents ((n + 1) % uint64Card) rest

/-- The subscriptions accumulated on the pending-ack list by a delivery
sequence started after `n` messages: the non-`auto` ones, each holding
its delivered frame, back-pointer set. -/
def expectedPending (n : Nat) : List Subscription → List Subscription
  | [] => []
  | sub :: rest =>
    if sub.ack = AckMode.auto then expectedPending ((n + 1) % uint64Card) rest
    else
      { sub with frame := some (expectedDelivery ((n + 1) % uint64Card) sub), subList := true }
        :: expectedPending ((n + 1) % uint64Card) rest

/-- The frames written to the client, extracted from an event trace. -/
def wireFrames (evs : List Event) : List Frame :=
  evs.filterMap (fun e => match e with | Event.wire f => some f | _ => none)

/-! ## Cleanup -/

/-- The session state relevant to cleanup: the subscription map's values,
the pending-ack list, the queued subscription deliveries, the queued
fire-and-forget frames, and the transaction store. -/
structure CleanupState where
  subs : List Subscription
  pending : List Subscription
  subChannel : List Subscription
  writeChannel : List Frame
  txStore : TxStore
deriving DecidableEq

/-- The `Get` drain loop of `cleanupConn`: pop each pending subscription
and requeue its unacknowledged frame. -/
def drainPending : List Subscription → List Request
  | [] => []
  | x :: rest =>
    Request.requeue ({ x with subList := false }).frame :: drainPending rest

/-- Models `cleanupSubChannel`: every queued subscription delivery is
requeued to the upper layer; returns the drained channel and the
requests sent. -/
def cleanupSubChannel (sc : List Subscription) : List Subscription × List Request :=
  ([], sc.map (fun sub => Request.requeue sub.frame))

/-- Models `discardWriteChannelFrames`: the queued fire-and-forget frames
are dropped; no requests are sent. -/
def discardWriteChannelFrames (_ : List Frame) : List Frame := []

/-- Models `cleanupConn`: discard transactions and queued writes, then
unsubscribe every active subscription, requeue every pending-ack frame,
drain the delivery channel (requeueing), report `Disconnected`, and
drain once more.  Returns the requests sent to the upper layer, in
order. -/
def cleanupConn (st : CleanupState) : List Request :=
  let _ts1 := txInit st.txStore
  let _wc1 := discardWriteChannelFrames st.writeChannel
  let rUnsub := st.subs.map Request.unsubscribe
  let rPending := drainPending st.pending
  let _wc2 := discardWriteChannelFrames _wc1
  let (sc1, rChan) := cleanupSubChannel st.subChannel
  let rDisc := [Request.disconnected]
  let _wc3 := discardWriteChannelFrames _wc2
  let (_sc2, rChan2) := cleanupSubChannel sc1
  rUnsub ++ rPending ++ rChan ++ rDisc ++ rChan2

/-! ## Example configurations used in concrete instances -/

/-- A configuration that accepts every login and enforces no minimum
heart-beat. -/
def cfgAllowAll : Config := { authenticate := fun _ _ => true, minHeartBeatMs := 0 }

/-- A configuration that accepts every login and enforces a minimum
heart-beat of 800 ms. -/
def cfgMin800 : Config := { authenticate := fun _ _ => true, minHeartBeatMs := 800 }

/-- An example client-acknowledged subscription holding a MESSAGE frame. -/
def subClientEx : Subscription := { id := "s1", dest := "/q", ack := AckMode.client, frame := some { command := "MESSAGE", headers := [("destination", "/q"), ("subscription", "s1")], body := [] }, subList := false }

/-- An example auto-acknowledged subscription holding a MESSAGE frame. -/
def subAutoEx : Subscription := { id := "s2", dest := "/q", ack := AckMode.auto, frame := some { command := "MESSAGE", headers := [("destination", "/q"), ("subscription", "s2"), ("ack", "stale")], body := [] }, subList := false }

/-! ## Receipt-handling predicates -/

/-- The connected-state commands whose handlers send a receipt: the
commands of the claim about receipt ordering. -/
def receiptedCommands : List String :=
  [SEND, SUBSCRIBE, UNSUBSCRIBE, ACK, NACK, BEGIN, COMMIT, ABORT]

/-- No frame stored in the transaction store carries a `receipt` header. -/
def tsNoReceipt (ts : TxStore) : Prop :=
  ∀ p ∈ ts, ∀ g ∈ p.2, g.Contains hReceipt = none

/-- Every frame stored in the transaction store and every frame forwarded
to the upper layer during a trace carries no `receipt` header. -/
def evsNoReceipt (evs : List Event) : Prop :=
  (∀ tx g, Event.store tx g ∈ evs → g.Contains hReceipt = none) ∧
  (∀ g, Event.req (Request.enqueue g) ∈ evs → g.Contains hReceipt = none)

/-! # Theorems -/

/-! ## Unfolding equations for the fuelled connected state function -/

theorem connectedStep_zero :
    connectedStep 0 = connectedBody (fun _ _ => Except.error Err.fuelExhausted) := rfl

theorem connectedStep_succ (fuel : Nat) :
    connectedStep (fuel + 1) = connectedBody (handleCommit (connectedStep fuel)) := rfl

/-! ## C7: cleanup requests -/

theorem drainPending_eq_map (l : List Subscription) :
    drainPending l = l.map (fun s => Request.requeue s.frame) := by
  induction l with
  | nil => rfl
  | cons x rest ih => simp [drainPending, ih]

/-- C7: on every terminal exit, cleanup sends exactly one `Unsubscribe`
request per active subscription in the subscription map, then one
`Requeue` request with the unacknowledged frame of each subscription on
the pending-ack list, and exactly one `Disconnected` request as the very
last request.  (Between the pending-ack requeues and `Disconnected`, any
deliveries still queued on the subscription channel are requeued as
well.) -/
theorem cleanup_requests (st : CleanupState) :
    cleanupConn st =
      st.subs.map Request.unsubscribe
        ++ st.pending.map (fun s => Request.requeue s.frame)
        ++ st.subChannel.map (fun s => Request.requeue s.frame)
        ++ [Request.disconnected] := by
  simp [cleanupConn, cleanupSubChannel, discardWriteChannelFrames, drainPending_eq_map]

/-! ## C8: the pending-ack list back-pointer -/

/-- C8 counterexample: `FindByIdAndRemove` does not clear the removed
subscription's back-pointer.  A subscription that was added to a list
(back-pointer set) and then removed by `FindByIdAndRemove` still has the
back-pointer set, so a subsequent `Add` panics — contradicting the claim
that every removal operation clears the back-pointer and permits a
subsequent `Add`. -/
theorem find_by_id_does_not_clear :
    slFindByIdAndRemove
        [{ id := "s1", dest := "/q", ack := AckMode.client, frame := none,
           subList := true }] "s1"
      = (some { id := "s1", dest := "/q", ack := AckMode.client, frame := none,
                subList := true }, []) ∧
    Subscription.subList
        { id := "s1", dest := "/q", ack := AckMode.client, frame := none,
          subList := true } = true ∧
    slAdd []
        { id := "s1", dest := "/q", ack := AckMode.client, frame := none,
          subList := true } = none := by
  refine ⟨rfl, rfl, rfl⟩

/-- C8 (amended): `Add` panics exactly when the subscription's
back-pointer is already set; `Get` and `Remove` clear the removed
subscription's back-pointer (so it can be re-`Add`-ed without panic);
`FindByIdAndRemove` removes the subscription from the list but returns
it unchanged, back-pointer included. -/
theorem subscription_list_backpointer (sl : List Subscription) (sub : Subscription) :
    (slAdd sl sub = none ↔ sub.subList = true) ∧
    (∀ s rest, slGet sl = some (s, rest) → s.subList = false) ∧
    (∀ rest s, slRemove sl sub = (rest, some s) → s.subList = false) ∧
    (∀ i s rest, slFindByIdAndRemove sl i = (some s, rest) → s ∈ sl) := by
  refine ⟨?_, ?_, ?_, ?_⟩
  · unfold slAdd
    by_cases h : sub.subList <;> simp [h]
  · intro s rest h
    cases sl with
    | nil => simp [slGet] at h
    | cons x xs =>
      simp [slGet] at h
      rw [← h.1]
  · induction sl with
    | nil => intro rest s h; simp [slRemove] at h
    | cons x xs ih =>
      intro rest s h
      by_cases hx : x = sub
      · simp [slRemove, hx] at h
        rw [← h.2]
      · simp [slRemove, hx] at h
        exact ih (slRemove xs sub).1 s (by rw [← h.2])
  · induction sl with
    | nil => intro i s rest h; simp [slFindByIdAndRemove] at h
    | cons x xs ih =>
      intro i s rest h
      by_cases hx : x.id = i
      · simp [slFindByIdAndRemove, hx] at h
        rw [← h.1]
        exact List.mem_cons_self x xs
      · simp [slFindByIdAndRemove, hx] at h
        exact List.mem_cons_of_mem x
          (ih i s (slFindByIdAndRemove xs i).2 (by rw [← h.1]))

theorem subscription_list_backpointer_witness :
    Subscription.subList
        { id := "s1", dest := "/q", ack := AckMode.client, frame := none,
          subList := false } = false ∧
    ({ id := "s1", dest := "/q", ack := AckMode.client, frame := none,
       subList := true } : Subscription) ∈
      [({ id := "s1", dest := "/q", ack := AckMode.client, frame := none,
          subList := true } : Subscription)] := by
  constructor
  · exact (subscription_list_backpointer
      [{ id := "s1", dest := "/q", ack := AckMode.client, frame := none,
         subList := true }]
      { id := "s1", dest := "/q", ack := AckMode.client, frame := none,
        subList := true }).2.1
      { id := "s1", dest := "/q", ack := AckMode.client, frame := none,
        subList := false } [] rfl
  · exact (subscription_list_backpointer
      [{ id := "s1", dest := "/q", ack := AckMode.client, frame := none,
         subList := true }]
      { id := "s1", dest := "/q", ack := AckMode.client, frame := none,
        subList := true }).2.2.2 "s1"
      { id := "s1", dest := "/q", ack := AckMode.client, frame := none,
        subList := true } [] rfl

/-! ## C10: MESSAGE frames on the fire-and-forget write channel -/

/-- C10: the write-channel branch of the processing loop always calls
`allocateMessageId` with a nil subscription, and for a MESSAGE frame the
source then dereferences `sub.ack` on the nil pointer and panics
(modelled by `none`).  Topic MESSAGE frames are exactly what the write
channel is documented to carry, so processing such a frame panics
instead of completing. -/
theorem message_on_write_channel_panics :
    writeChannelStep 0
      { command := "MESSAGE",
        headers := [("destination", "/q"), ("subscription", "s1")],
        body := [] } = none := by
  rfl

/-! ## C4: DISCONNECT does not terminate the session -/

/-- C4: handling a DISCONNECT frame does not terminate the processing
loop.  The loop result is `cont` — the session stays in the connected
state — and a subsequent SEND frame from the same client still produces
a RECEIPT frame written to the client after the DISCONNECT, contradicting
the claim (and the source's own comment) that after DISCONNECT no
further frames are sent beyond the DISCONNECT's own receipt. -/
theorem disconnect_does_not_terminate :
    processInbound cfgAllowAll 1 ConnMode.connected []
        { command := "DISCONNECT", headers := [("receipt", "r1")], body := [] }
      = StepResult.cont ConnMode.connected []
          [Event.wire { command := "RECEIPT", headers := [("receipt-id", "r1")],
                        body := [] }] ∧
    processInbound cfgAllowAll 1 ConnMode.connected []
        { command := "SEND",
          headers := [("destination", "/q"), ("receipt", "r2")], body := [] }
      = StepResult.cont ConnMode.connected []
          [Event.wire { command := "RECEIPT", headers := [("receipt-id", "r2")],
                        body := [] },
           Event.req (Request.enqueue
             { command := "SEND", headers := [("destination", "/q")], body := [] })] := by
  refine ⟨rfl, rfl⟩

/-! ## C5: the state-machine dispatch -/

/-- C5 counterexample: a CONNECTED frame from the client.  CONNECTED is
in the STOMP command vocabulary and is none of CONNECT, STOMP, MESSAGE,
RECEIPT, ERROR, so the claim says it is dispatched to a per-command
handler; the connected state instead rejects it with `unknownCommand`
(the error the claim reserves for commands outside the vocabulary). -/
theorem connected_dispatch_cex :
    ("CONNECTED" ∈ stompCommands) ∧
    ("CONNECTED" ≠ CONNECT ∧ "CONNECTED" ≠ STOMP ∧ "CONNECTED" ≠ MESSAGE ∧
     "CONNECTED" ≠ RECEIPT ∧ "CONNECTED" ≠ ERROR) ∧
    connectedStep 1 [] { command := "CONNECTED", headers := [], body := [] }
      = Except.error Err.unknownCommand := by
  refine ⟨by simp [stompCommands, CONNECTED], by refine ⟨?_, ?_, ?_, ?_, ?_⟩ <;> decide,
    rfl⟩

/-- C5 (amended): in the connecting state any command other than CONNECT
or STOMP yields `notConnected`, and CONNECT/STOMP go to the connect
handler.  In the connected state CONNECT/STOMP yield
`unexpectedCommand`; MESSAGE, RECEIPT and ERROR yield
`unexpectedCommand`; DISCONNECT, BEGIN, ABORT, COMMIT, SEND, SUBSCRIBE,
UNSUBSCRIBE, ACK and NACK are dispatched to their per-command handlers;
every other command — commands outside the STOMP vocabulary, and also
CONNECTED, which has no client-side handler — yields `unknownCommand`. -/
theorem state_machine_dispatch (cfg : Config) (fuel : Nat) (ts : TxStore) (f : Frame) :
    (f.command ≠ CONNECT → f.command ≠ STOMP →
      connectingStep cfg f = Except.error Err.notConnected) ∧
    (f.command = CONNECT ∨ f.command = STOMP →
      connectingStep cfg f = handleConnect cfg f ∧
      connectedStep fuel ts f = Except.error Err.unexpectedCommand) ∧
    (f.command = MESSAGE ∨ f.command = RECEIPT ∨ f.command = ERROR →
      connectedStep fuel ts f = Except.error Err.unexpectedCommand) ∧
    (f.command = DISCONNECT →
      connectedStep fuel ts f = Except.ok (ts, handleDisconnect f)) ∧
    (f.command = BEGIN → connectedStep fuel ts f = handleBegin ts f) ∧
    (f.command = ABORT → connectedStep fuel ts f = handleAbort ts f) ∧
    (f.command = COMMIT →
      connectedStep (fuel + 1) ts f = handleCommit (connectedStep fuel) ts f) ∧
    (f.command = SEND → connectedStep fuel ts f = handleSend ts f) ∧
    (f.command = SUBSCRIBE → connectedStep fuel ts f = handleSubscribe ts f) ∧
    (f.command = UNSUBSCRIBE → connectedStep fuel ts f = handleUnsubscribe ts f) ∧
    (f.command = ACK → connectedStep fuel ts f = handleAck ts f) ∧
    (f.command = NACK → connectedStep fuel ts f = handleNack ts f) ∧
    (f.command ∉ stompCommands ∨ f.command = CONNECTED →
      connectedStep fuel ts f = Except.error Err.unknownCommand) := by
  refine ⟨?_, ?_, ?_, ?_, ?_, ?_, ?_, ?_, ?_, ?_, ?_, ?_, ?_⟩
  · intro h1 h2
    simp [connectingStep, h1, h2]
  · intro h
    refine ⟨by simp [connectingStep, h], ?_⟩
    cases fuel <;> simp [connectedStep_zero, connectedStep_succ, connectedBody, h]
  · intro h
    cases fuel <;> rcases h with h | h | h <;>
      simp [connectedStep_zero, connectedStep_succ, connectedBody, h, MESSAGE, RECEIPT, ERROR, CONNECT,
        STOMP, DISCONNECT, BEGIN, ABORT, COMMIT, SEND, SUBSCRIBE, UNSUBSCRIBE,
        ACK, NACK]
  · intro h
    cases fuel <;>
      simp [connectedStep_zero, connectedStep_succ, connectedBody, h, CONNECT, STOMP, DISCONNECT]
  · intro h
    cases fuel <;>
      simp [connectedStep_zero, connectedStep_succ, connectedBody, h, CONNECT, STOMP, DISCONNECT, BEGIN]
  · intro h
    cases fuel <;>
      simp [connectedStep_zero, connectedStep_succ, connectedBody, h, CONNECT, STOMP, DISCONNECT, BEGIN,
        ABORT]
  · intro h
    simp [connectedStep_zero, connectedStep_succ, connectedBody, h, CONNECT, STOMP, DISCONNECT, BEGIN,
      ABORT, COMMIT]
  · intro h
    cases fuel <;>
      simp [connectedStep_zero, connectedStep_succ, connectedBody, h, CONNECT, STOMP, DISCONNECT, BEGIN,
        ABORT, COMMIT, SEND]
  · intro h
    cases fuel <;>
      simp [connectedStep_zero, connectedStep_succ, connectedBody, h, CONNECT, STOMP, DISCONNECT, BEGIN,
        ABORT, COMMIT, SEND, SUBSCRIBE]
  · intro h
    cases fuel <;>
      simp [connectedStep_zero, connectedStep_succ, connectedBody, h, CONNECT, STOMP, DISCONNECT, BEGIN,
        ABORT, COMMIT, SEND, SUBSCRIBE, UNSUBSCRIBE]
  · intro h
    cases fuel <;>
      simp [connectedStep_zero, connectedStep_succ, connectedBody, h, CONNECT, STOMP, DISCONNECT, BEGIN,
        ABORT, COMMIT, SEND, SUBSCRIBE, UNSUBSCRIBE, ACK]
  · intro h
    cases fuel <;>
      simp [connectedStep_zero, connectedStep_succ, connectedBody, h, CONNECT, STOMP, DISCONNECT, BEGIN,
        ABORT, COMMIT, SEND, SUBSCRIBE, UNSUBSCRIBE, ACK, NACK]
  · intro h
    rcases h with h | h
    · simp only [stompCommands, List.mem_cons, List.mem_singleton, not_or] at h
      obtain ⟨h1, h2, h3, h4, h5, h6, h7, h8, h9, h10, h11, h12, h13, h14, h15⟩ := h
      cases fuel <;>
        simp [connectedStep_zero, connectedStep_succ, connectedBody, h1, h2, h3, h4, h5, h6, h7, h8, h9,
          h10, h11, h12, h13, h14, h15]
    · cases fuel <;>
        simp [connectedStep_zero, connectedStep_succ, connectedBody, h, CONNECTED, CONNECT, STOMP,
          DISCONNECT, BEGIN, ABORT, COMMIT, SEND, SUBSCRIBE, UNSUBSCRIBE, ACK,
          NACK, MESSAGE, RECEIPT, ERROR]

theorem state_machine_dispatch_witness :
    connectingStep cfgAllowAll
        { command := "RECEIPT", headers := [("receipt-id", "r")], body := [] }
      = Except.error Err.notConnected ∧
    connectedStep 1 []
        { command := "SEND", headers := [("destination", "/q")], body := [] }
      = handleSend []
          { command := "SEND", headers := [("destination", "/q")], body := [] } := by
  constructor
  · exact (state_machine_dispatch cfgAllowAll 1 []
      { command := "RECEIPT", headers := [("receipt-id", "r")], body := [] }).1
      (by decide) (by decide)
  · exact (state_machine_dispatch cfgAllowAll 1 []
      { command := "SEND", headers := [("destination", "/q")], body := [] }
      ).2.2.2.2.2.2.2.1 rfl

/-! ## C9: content-length -/

/-- C9: `ContentLength` on a present `content-length` header parses the
value as an unsigned decimal integer fitting in 32 bits; a parsed value
greater than 16 MiB fails with `exceededMaxFrameSize`, a parsed value of
at most 16 MiB (in particular exactly 16777216) is accepted, and an
absent header is reported as not found without error. -/
theorem content_length_spec (f : Frame) :
    (f.Contains hContentLength = none → f.ContentLength = (0, false, none)) ∧
    (∀ text, f.Contains hContentLength = some text →
      (parseUint 32 text = none →
        f.ContentLength = (0, false, some Err.parseUintFailed)) ∧
      (∀ v, parseUint 32 text = some v →
        (v > MaxContentLength →
          f.ContentLength = (0, false, some Err.exceededMaxFrameSize)) ∧
        (v ≤ MaxContentLength → f.ContentLength = (v, true, none)))) := by
  refine ⟨?_, ?_⟩
  · intro h
    simp [Frame.ContentLength, h]
  · intro text ht
    refine ⟨?_, ?_⟩
    · intro hp
      simp [Frame.ContentLength, ht, hp]
    · intro v hp
      refine ⟨fun hv => ?_, fun hv => ?_⟩
      · simp [Frame.ContentLength, ht, hp, hv]
      · have hnl : ¬ MaxContentLength < v := not_lt.mpr hv
        simp [Frame.ContentLength, ht, hp, hnl]

theorem content_length_spec_witness :
    Frame.ContentLength
        { command := "SEND", headers := [("destination", "/q")], body := [] }
      = (0, false, none) ∧
    Frame.ContentLength
        { command := "SEND", headers := [("content-length", "16777216")], body := [] }
      = (16777216, true, none) ∧
    Frame.ContentLength
        { command := "SEND", headers := [("content-length", "16777217")], body := [] }
      = (0, false, some Err.exceededMaxFrameSize) ∧
    Frame.ContentLength
        { command := "SEND", headers := [("content-length", "9999999999")], body := [] }
      = (0, false, some Err.parseUintFailed) := by
  refine ⟨?_, ?_, ?_, ?_⟩
  · exact (content_length_spec
      { command := "SEND", headers := [("destination", "/q")], body := [] }).1 rfl
  · exact (((content_length_spec
      { command := "SEND", headers := [("content-length", "16777216")],
        body := [] }).2 "16777216" rfl).2 16777216 rfl).2 (by decide)
  · exact (((content_length_spec
      { command := "SEND", headers := [("content-length", "16777217")],
        body := [] }).2 "16777217" rfl).2 16777217 rfl).1 (by decide)
  · exact ((content_length_spec
      { command := "SEND", headers := [("content-length", "9999999999")],
        body := [] }).2 "9999999999" rfl).1 rfl

/-! ## C3: heart-beat negotiation -/

/-- C3: for a successfully connecting frame whose heart-beat header
parses as `(cx, cy)`, the session stores a read interval of
`max cx serverMin` when `cx > 0` (zero stays zero) and a write interval
of `max cy serverMin` when `cy > 0` (zero stays zero), and the CONNECTED
reply carries a `heart-beat` header equal to the clamped values in
swapped order — for every negotiated version, V1.0 included. -/
theorem connect_negotiation (cfg : Config) (f : Frame) (cx cy : Nat)
    (s : ConnectedSession)
    (hhb : f.HeartBeat = Except.ok (cx, cy))
    (hok : handleConnect cfg f = Except.ok s) :
    s.readTimeoutMs = (if cx = 0 then 0 else max cx cfg.minHeartBeatMs) ∧
    s.writeTimeoutMs = (if cy = 0 then 0 else max cy cfg.minHeartBeatMs) ∧
    s.response.command = CONNECTED ∧
    s.response.Contains hVersion = some s.version.toStr ∧
    s.response.Contains hHeartBeat =
      some (Nat.repr s.writeTimeoutMs ++ "," ++ Nat.repr s.readTimeoutMs) := by
  unfold handleConnect at hok
  split at hok
  · exact absurd hok (by simp)
  · split at hok
    · exact absurd hok (by simp)
    · split at hok
      · exact absurd hok (by simp)
      · rename_i version heq
        split at hok
        · exact absurd hok (by simp)
        · rename_i cx0 cy0 heq2
          rw [hhb] at heq2
          injection heq2 with heq2
          injection heq2 with hcx hcy
          subst hcx
          subst hcy
          injection hok with hok
          subst hok
          refine ⟨?_, ?_, rfl, ?_, ?_⟩
          · simp only []
            split_ifs <;> omega
          · simp only []
            split_ifs <;> omega
          · simp [NewFrame, Frame.Contains, hdrContains, hVersion, hServer,
              hHeartBeat, StompVersion.toStr]
          · simp [NewFrame, Frame.Contains, hdrContains, hVersion, hServer,
              hHeartBeat]

theorem connect_negotiation_witness :
    Frame.HeartBeat
        { command := "CONNECT",
          headers := [("accept-version", "1.0,1.2"), ("host", "/"),
                      ("heart-beat", "500,1000")], body := [] }
      = Except.ok (500, 1000) ∧
    handleConnect cfgMin800
        { command := "CONNECT",
          headers := [("accept-version", "1.0,1.2"), ("host", "/"),
                      ("heart-beat", "500,1000")], body := [] }
      = Except.ok
          { version := StompVersion.V1_2, readTimeoutMs := 800,
            writeTimeoutMs := 1000,
            response :=
              { command := "CONNECTED",
                headers := [("version", "1.2"), ("server", "stompd/x.y.z"),
                            ("heart-beat", "1000,800")], body := [] } } ∧
    (800 = if (500 : Nat) = 0 then 0 else max 500 cfgMin800.minHeartBeatMs) ∧
    Frame.Contains
        { command := "CONNECTED",
          headers := [("version", "1.2"), ("server", "stompd/x.y.z"),
                      ("heart-beat", "1000,800")], body := [] } hHeartBeat
      = some (Nat.repr 1000 ++ "," ++ Nat.repr 800) := by
  have hhb : Frame.HeartBeat
      { command := "CONNECT",
        headers := [("accept-version", "1.0,1.2"), ("host", "/"),
                    ("heart-beat", "500,1000")], body := [] }
      = Except.ok (500, 1000) := by rfl
  have hok : handleConnect cfgMin800
      { command := "CONNECT",
        headers := [("accept-version", "1.0,1.2"), ("host", "/"),
                    ("heart-beat", "500,1000")], body := [] }
      = Except.ok
          { version := StompVersion.V1_2, readTimeoutMs := 800,
            writeTimeoutMs := 1000,
            response :=
              { command := "CONNECTED",
                headers := [("version", "1.2"), ("server", "stompd/x.y.z"),
                            ("heart-beat", "1000,800")], body := [] } } := by rfl
  have h := connect_negotiation cfgMin800 _ 500 1000 _ hhb hok
  exact ⟨hhb, hok, h.1, h.2.2.2.2⟩

/-! ## C1: receipts precede effects; stored frames keep no receipt -/

theorem hdrRemove_contains_self (hs : List (String × String)) (k : String) :
    hdrContains (hdrRemove hs k) k = none := by
  induction hs with
  | nil => rfl
  | cons p rest ih =>
    obtain ⟨n, v⟩ := p
    by_cases h : n = k
    · simpa [hdrRemove, h] using ih
    · simp [hdrRemove, hdrContains, h, ih]

theorem hdrRemove_contains_other (hs : List (String × String)) (k k' : String)
    (h : hdrContains hs k' = none) :
    hdrContains (hdrRemove hs k) k' = none := by
  induction hs with
  | nil => rfl
  | cons p rest ih =>
    obtain ⟨n, v⟩ := p
    by_cases hk' : n = k'
    · rw [hdrContains, if_pos hk'] at h
      exact absurd h (by simp)
    · rw [hdrContains, if_neg hk'] at h
      by_cases hk : n = k
      · simpa [hdrRemove, hk] using ih h
      · simp [hdrRemove, hk, hdrContains, hk']
        exact ih h

theorem strip_noReceipt (f : Frame) :
    (sendReceiptImmediately f).1.Contains hReceipt = none := by
  rcases h : f.Contains hReceipt with _ | r
  · have h' : hdrContains f.headers hReceipt = none := h
    simp [sendReceiptImmediately, Frame.Contains, h']
  · have h' : hdrContains f.headers hReceipt = some r := h
    simp [sendReceiptImmediately, Frame.Contains, h', Frame.Remove,
      hdrRemove_contains_self]

theorem sendReceipt_some (f : Frame) (r : String) (h : f.Contains hReceipt = some r) :
    sendReceiptImmediately f =
      (f.Remove hReceipt, [Event.wire (NewFrame RECEIPT [(hReceiptId, r)])]) := by
  simp [sendReceiptImmediately, h]

theorem sendReceipt_evs_noReceipt (f : Frame) :
    evsNoReceipt (sendReceiptImmediately f).2 := by
  rcases h : f.Contains hReceipt with _ | r <;>
    simp [sendReceiptImmediately, h, evsNoReceipt]

theorem evsNoReceipt_append (a b : List Event)
    (ha : evsNoReceipt a) (hb : evsNoReceipt b) : evsNoReceipt (a ++ b) := by
  constructor
  · intro tx g hg
    rcases List.mem_append.mp hg with h | h
    · exact ha.1 tx g h
    · exact hb.1 tx g h
  · intro g hg
    rcases List.mem_append.mp hg with h | h
    · exact ha.2 g h
    · exact hb.2 g h

theorem tsNoReceipt_of_cons (q : String × List Frame) (rest : TxStore)
    (h : tsNoReceipt (q :: rest)) : tsNoReceipt rest :=
  fun p hp g hg => h p (List.mem_cons_of_mem _ hp) g hg

theorem tsNoReceipt_begin (ts : TxStore) (id : String) (h : tsNoReceipt ts) :
    tsNoReceipt (ts ++ [(id, [])]) := by
  intro p hp g hg
  rcases List.mem_append.mp hp with hp | hp
  · exact h p hp g hg
  · simp at hp
    subst hp
    simp at hg

theorem tsNoReceipt_filter (ts : TxStore) (pred : String × List Frame → Bool)
    (h : tsNoReceipt ts) : tsNoReceipt (ts.filter pred) :=
  fun p hp => h p (List.mem_of_mem_filter hp)

theorem tsNoReceipt_txAppend :
    ∀ ts : TxStore, tsNoReceipt ts → ∀ (id : String) (g : Frame),
      g.Contains hReceipt = none → tsNoReceipt (txAppend ts id g) := by
  intro ts
  induction ts with
  | nil =>
    intro _ id g _ p hp
    simp [txAppend] at hp
  | cons q rest ih =>
    obtain ⟨i, fs⟩ := q
    intro h id g hg p hp g' hg'
    by_cases hid : (i == id) = true
    · simp only [txAppend, hid, if_true] at hp
      rcases List.mem_cons.mp hp with hp | hp
      · subst hp
        rcases List.mem_append.mp hg' with hx | hx
        · exact h (i, fs) (List.mem_cons_self _ _) g' hx
        · simp at hx
          subst hx
          exact hg
      · exact h p (List.mem_cons_of_mem _ hp) g' hg'
    · simp only [txAppend, hid, if_false] at hp
      rcases List.mem_cons.mp hp with hp | hp
      · subst hp
        exact h (i, fs) (List.mem_cons_self _ _) g' hg'
      · exact ih (tsNoReceipt_of_cons _ _ h) id g hg p hp g' hg'

theorem txFrames_noReceipt :
    ∀ ts : TxStore, tsNoReceipt ts → ∀ (id : String) (g : Frame),
      g ∈ txFrames ts id → g.Contains hReceipt = none := by
  intro ts
  induction ts with
  | nil =>
    intro _ id g hg
    simp [txFrames] at hg
  | cons q rest ih =>
    obtain ⟨i, fs⟩ := q
    intro h id g hg
    by_cases hid : (i == id) = true
    · simp only [txFrames, hid, if_true] at hg
      exact h (i, fs) (List.mem_cons_self _ _) g hg
    · simp only [txFrames, hid, if_false] at hg
      exact ih (tsNoReceipt_of_cons _ _ h) id g hg

theorem handleBegin_inv (ts ts' : TxStore) (f : Frame) (evs : List Event)
    (hts : tsNoReceipt ts) (h : handleBegin ts f = Except.ok (ts', evs)) :
    evsNoReceipt evs ∧ tsNoReceipt ts' := by
  unfold handleBegin at h
  rcases htx : f.Contains hTransaction with _ | tx <;> rw [htx] at h
  · exact absurd h (by simp)
  · unfold txBegin at h
    by_cases hex : txExists ts tx
    · simp [hex] at h
    · simp only [hex, if_false] at h
      obtain ⟨h1, h2⟩ := Prod.mk.injEq .. ▸ (Except.ok.injEq .. ▸ h)
      rw [← h1, ← h2]
      exact ⟨sendReceipt_evs_noReceipt f, tsNoReceipt_begin ts tx hts⟩

theorem handleAbort_inv (ts ts' : TxStore) (f : Frame) (evs : List Event)
    (hts : tsNoReceipt ts) (h : handleAbort ts f = Except.ok (ts', evs)) :
    evsNoReceipt evs ∧ tsNoReceipt ts' := by
  unfold handleAbort at h
  rcases htx : f.Contains hTransaction with _ | tx <;> rw [htx] at h
  · exact absurd h (by simp)
  · unfold txAbort at h
    by_cases hex : txExists ts tx
    · simp only [hex, if_true] at h
      obtain ⟨h1, h2⟩ := Prod.mk.injEq .. ▸ (Except.ok.injEq .. ▸ h)
      rw [← h1, ← h2]
      exact ⟨sendReceipt_evs_noReceipt f, tsNoReceipt_filter ts _ hts⟩
    · simp [hex] at h

theorem handleSend_inv (ts ts' : TxStore) (f : Frame) (evs : List Event)
    (hts : tsNoReceipt ts) (h : handleSend ts f = Except.ok (ts', evs)) :
    evsNoReceipt evs ∧ tsNoReceipt ts' := by
  unfold handleSend at h
  rcases htx : (sendReceiptImmediately f).1.Contains hTransaction with _ | tx <;>
    rw [htx] at h
  · obtain ⟨h1, h2⟩ := Prod.mk.injEq .. ▸ (Except.ok.injEq .. ▸ h)
    rw [← h1, ← h2]
    refine ⟨evsNoReceipt_append _ _ (sendReceipt_evs_noReceipt f) ?_, hts⟩
    constructor
    · intro tx g hg
      simp at hg
    · intro g hg
      simp at hg
      rw [hg]
      exact strip_noReceipt f
  · unfold txAdd at h
    by_cases hex : txExists ts tx
    · simp only [hex, if_true] at h
      obtain ⟨h1, h2⟩ := Prod.mk.injEq .. ▸ (Except.ok.injEq .. ▸ h)
      rw [← h1, ← h2]
      have hstored : ((sendReceiptImmediately f).1.Remove hTransaction).Contains
          hReceipt = none := by
        have := strip_noReceipt f
        simpa [Frame.Remove, Frame.Contains] using
          hdrRemove_contains_other _ hTransaction hReceipt
            (by simpa [Frame.Contains] using this)
      refine ⟨evsNoReceipt_append _ _ (sendReceipt_evs_noReceipt f) ?_,
        tsNoReceipt_txAppend ts hts tx _ hstored⟩
      constructor
      · intro tx' g hg
        simp at hg
        rw [hg.2]
        exact hstored
      · intro g hg
        simp at hg
    · simp [hex] at h

theorem sendFrameRequest_inv (ts ts' : TxStore) (f : Frame) (evs : List Event)
    (hts : tsNoReceipt ts) (h : sendFrameRequest ts f = Except.ok (ts', evs)) :
    evsNoReceipt evs ∧ tsNoReceipt ts' := by
  unfold sendFrameRequest at h
  obtain ⟨h1, h2⟩ := Prod.mk.injEq .. ▸ (Except.ok.injEq .. ▸ h)
  rw [← h1, ← h2]
  refine ⟨evsNoReceipt_append _ _ (sendReceipt_evs_noReceipt f) ?_, hts⟩
  constructor
  · intro tx g hg
    simp at hg
  · intro g hg
    simp at hg
    rw [hg]
    exact strip_noReceipt f

theorem replayWith_inv (step : TxStore → Frame → Except Err (TxStore × List Event))
    (hstep : ∀ ts f ts' evs, tsNoReceipt ts → step ts f = Except.ok (ts', evs) →
      evsNoReceipt evs ∧ tsNoReceipt ts') :
    ∀ (gs : List Frame) (ts ts' : TxStore) (evs : List Event), tsNoReceipt ts →
      replayWith step ts gs = Except.ok (ts', evs) →
      evsNoReceipt evs ∧ tsNoReceipt ts' := by
  intro gs
  induction gs with
  | nil =>
    intro ts ts' evs hts h
    unfold replayWith at h
    obtain ⟨h1, h2⟩ := Prod.mk.injEq .. ▸ (Except.ok.injEq .. ▸ h)
    rw [← h1, ← h2]
    exact ⟨⟨fun tx g hg => by simp at hg, fun g hg => by simp at hg⟩, hts⟩
  | cons g gs ih =>
    intro ts ts' evs hts h
    unfold replayWith at h
    rcases hstep1 : step ts g with e | p <;> rw [hstep1] at h
    · exact absurd h (by simp)
    · obtain ⟨ts1, evs1⟩ := p
      dsimp only at h
      rcases hrec : replayWith step ts1 gs with e | q <;> rw [hrec] at h
      · exact absurd h (by simp)
      · obtain ⟨ts2, evs2⟩ := q
        dsimp only at h
        obtain ⟨h1, h2⟩ := Prod.mk.injEq .. ▸ (Except.ok.injEq .. ▸ h)
        rw [← h1, ← h2]
        have hi1 := hstep ts g ts1 evs1 hts hstep1
        have hi2 := ih ts1 ts2 evs2 hi1.2 hrec
        exact ⟨evsNoReceipt_append _ _ hi1.1 hi2.1, hi2.2⟩

theorem handleCommit_inv (step : TxStore → Frame → Except Err (TxStore × List Event))
    (hstep : ∀ ts f ts' evs, tsNoReceipt ts → step ts f = Except.ok (ts', evs) →
      evsNoReceipt evs ∧ tsNoReceipt ts')
    (ts ts' : TxStore) (f : Frame) (evs : List Event)
    (hts : tsNoReceipt ts) (h : handleCommit step ts f = Except.ok (ts', evs)) :
    evsNoReceipt evs ∧ tsNoReceipt ts' := by
  unfold handleCommit at h
  rcases htx : f.Contains hTransaction with _ | tx <;> rw [htx] at h
  · exact absurd h (by simp)
  · by_cases hex : txExists ts tx
    · simp only [hex, if_true] at h
      rcases hrep : replayWith step (txDelete ts tx) (txFrames ts tx) with e | q <;>
        rw [hrep] at h
      · exact absurd h (by simp)
      · obtain ⟨ts1, evs1⟩ := q
        obtain ⟨h1, h2⟩ := Prod.mk.injEq .. ▸ (Except.ok.injEq .. ▸ h)
        rw [← h1, ← h2]
        have hrec := replayWith_inv step hstep (txFrames ts tx) (txDelete ts tx)
          ts1 evs1 (tsNoReceipt_filter ts _ hts) hrep
        exact ⟨evsNoReceipt_append _ _ (sendReceipt_evs_noReceipt f) hrec.1, hrec.2⟩
    · simp [hex] at h

set_option maxHeartbeats 4000000 in
/-- The no-receipt invariant of the connected state: if no stored frame
carries a `receipt` header, then after any successfully handled frame no
stored frame carries one, every frame appended to the store during the
step lacks one, and every frame forwarded to the upper layer lacks one. -/
theorem connectedStep_inv :
    ∀ (fuel : Nat) (ts : TxStore) (f : Frame) (ts' : TxStore) (evs : List Event),
      tsNoReceipt ts → connectedStep fuel ts f = Except.ok (ts', evs) →
      evsNoReceipt evs ∧ tsNoReceipt ts' := by
  intro fuel
  induction fuel with
  | zero =>
    intro ts f ts' evs hts h
    rw [connectedStep_zero] at h
    unfold connectedBody at h
    split at h
    · exact absurd h (by simp)
    · split at h
      · obtain ⟨h1, h2⟩ := Prod.mk.injEq .. ▸ (Except.ok.injEq .. ▸ h)
        rw [← h1, ← h2]
        exact ⟨sendReceipt_evs_noReceipt f, hts⟩
      · split at h
        · exact handleBegin_inv ts ts' f evs hts h
        · split at h
          · exact handleAbort_inv ts ts' f evs hts h
          · split at h
            · exact absurd h (by simp)
            · split at h
              · exact handleSend_inv ts ts' f evs hts h
              · split at h
                · exact sendFrameRequest_inv ts ts' f evs hts h
                · split at h
                  · exact sendFrameRequest_inv ts ts' f evs hts h
                  · split at h
                    · exact sendFrameRequest_inv ts ts' f evs hts h
                    · split at h
                      · exact sendFrameRequest_inv ts ts' f evs hts h
                      · split at h
                        · exact absurd h (by simp)
                        · exact absurd h (by simp)
  | succ n ih =>
    intro ts f ts' evs hts h
    rw [connectedStep_succ] at h
    unfold connectedBody at h
    split at h
    · exact absurd h (by simp)
    · split at h
      · obtain ⟨h1, h2⟩ := Prod.mk.injEq .. ▸ (Except.ok.injEq .. ▸ h)
        rw [← h1, ← h2]
        exact ⟨sendReceipt_evs_noReceipt f, hts⟩
      · split at h
        · exact handleBegin_inv ts ts' f evs hts h
        · split at h
          · exact handleAbort_inv ts ts' f evs hts h
          · split at h
            · exact handleCommit_inv (connectedStep n)
                (fun a b c d => ih a b c d) ts ts' f evs hts h
            · split at h
              · exact handleSend_inv ts ts' f evs hts h
              · split at h
                · exact sendFrameRequest_inv ts ts' f evs hts h
                · split at h
                  · exact sendFrameRequest_inv ts ts' f evs hts h
                  · split at h
                    · exact sendFrameRequest_inv ts ts' f evs hts h
                    · split at h
                      · exact sendFrameRequest_inv ts ts' f evs hts h
                      · split at h
                        · exact absurd h (by simp)
                        · exact absurd h (by simp)

theorem handleBegin_evs (ts ts' : TxStore) (f : Frame) (evs : List Event)
    (h : handleBegin ts f = Except.ok (ts', evs)) :
    ∃ tail, evs = (sendReceiptImmediately f).2 ++ tail := by
  unfold handleBegin at h
  rcases htx : f.Contains hTransaction with _ | tx <;> rw [htx] at h
  · exact absurd h (by simp)
  · unfold txBegin at h
    by_cases hex : txExists ts tx
    · simp [hex] at h
    · simp only [hex, if_false] at h
      obtain ⟨h1, h2⟩ := Prod.mk.injEq .. ▸ (Except.ok.injEq .. ▸ h)
      exact ⟨[], by rw [← h2]; simp⟩

theorem handleAbort_evs (ts ts' : TxStore) (f : Frame) (evs : List Event)
    (h : handleAbort ts f = Except.ok (ts', evs)) :
    ∃ tail, evs = (sendReceiptImmediately f).2 ++ tail := by
  unfold handleAbort at h
  rcases htx : f.Contains hTransaction with _ | tx <;> rw [htx] at h
  · exact absurd h (by simp)
  · unfold txAbort at h
    by_cases hex : txExists ts tx
    · simp only [hex, if_true] at h
      obtain ⟨h1, h2⟩ := Prod.mk.injEq .. ▸ (Except.ok.injEq .. ▸ h)
      exact ⟨[], by rw [← h2]; simp⟩
    · simp [hex] at h

theorem handleSend_evs (ts ts' : TxStore) (f : Frame) (evs : List Event)
    (h : handleSend ts f = Except.ok (ts', evs)) :
    ∃ tail, evs = (sendReceiptImmediately f).2 ++ tail := by
  unfold handleSend at h
  rcases htx : (sendReceiptImmediately f).1.Contains hTransaction with _ | tx <;>
    rw [htx] at h
  · obtain ⟨h1, h2⟩ := Prod.mk.injEq .. ▸ (Except.ok.injEq .. ▸ h)
    exact ⟨_, h2.symm⟩
  · unfold txAdd at h
    by_cases hex : txExists ts tx
    · simp only [hex, if_true] at h
      obtain ⟨h1, h2⟩ := Prod.mk.injEq .. ▸ (Except.ok.injEq .. ▸ h)
      exact ⟨_, h2.symm⟩
    · simp [hex] at h

theorem sendFrameRequest_evs (ts ts' : TxStore) (f : Frame) (evs : List Event)
    (h : sendFrameRequest ts f = Except.ok (ts', evs)) :
    ∃ tail, evs = (sendReceiptImmediately f).2 ++ tail := by
  unfold sendFrameRequest at h
  obtain ⟨h1, h2⟩ := Prod.mk.injEq .. ▸ (Except.ok.injEq .. ▸ h)
  exact ⟨_, h2.symm⟩

theorem handleCommit_evs (step : TxStore → Frame → Except Err (TxStore × List Event))
    (ts ts' : TxStore) (f : Frame) (evs : List Event)
    (h : handleCommit step ts f = Except.ok (ts', evs)) :
    ∃ tail, evs = (sendReceiptImmediately f).2 ++ tail := by
  unfold handleCommit at h
  rcases htx : f.Contains hTransaction with _ | tx <;> rw [htx] at h
  · exact absurd h (by simp)
  · by_cases hex : txExists ts tx
    · simp only [hex, if_true] at h
      rcases hrep : replayWith step (txDelete ts tx) (txFrames ts tx) with e | q <;>
        rw [hrep] at h
      · exact absurd h (by simp)
      · obtain ⟨ts1, evs1⟩ := q
        dsimp only at h
        obtain ⟨h1, h2⟩ := Prod.mk.injEq .. ▸ (Except.ok.injEq .. ▸ h)
        exact ⟨_, h2.symm⟩
    · simp [hex] at h

set_option maxHeartbeats 1000000 in
/-- For every receipted command handled in the connected state, the event
trace of a successful step begins with the RECEIPT frame written to the
client; every upper-layer request and transaction-store insertion comes
after it. -/
theorem connectedStep_receipt_first (fuel : Nat) (ts ts' : TxStore) (f : Frame)
    (r : String) (evs : List Event)
    (hcmd : f.command ∈ receiptedCommands)
    (hr : f.Contains hReceipt = some r)
    (hok : connectedStep fuel ts f = Except.ok (ts', evs)) :
    ∃ tail, evs = Event.wire (NewFrame RECEIPT [(hReceiptId, r)]) :: tail := by
  have hsr : (sendReceiptImmediately f).2 =
      [Event.wire (NewFrame RECEIPT [(hReceiptId, r)])] := by
    rw [sendReceipt_some f r hr]
  have main : ∀ (g : TxStore → Frame → Except Err (TxStore × List Event)),
      connectedBody g ts f = Except.ok (ts', evs) →
      (f.command = COMMIT → ∀ ts1 evs1, g ts f = Except.ok (ts1, evs1) →
        ∃ tail, evs1 = (sendReceiptImmediately f).2 ++ tail) →
      ∃ tail, evs = Event.wire (NewFrame RECEIPT [(hReceiptId, r)]) :: tail := by
    intro g hg hcom
    unfold connectedBody at hg
    simp only [receiptedCommands, List.mem_cons, List.not_mem_nil, or_false] at hcmd
    rcases hcmd with h | h | h | h | h | h | h | h <;>
      simp only [h, SEND, SUBSCRIBE, UNSUBSCRIBE, ACK, NACK, BEGIN, COMMIT, ABORT,
        CONNECT, STOMP, DISCONNECT, MESSAGE, RECEIPT, ERROR] at hg hcom <;>
      simp only [reduceIte] at hg
    · obtain ⟨tail, htail⟩ := handleSend_evs ts ts' f evs hg
      exact ⟨tail, by rw [htail, hsr]; rfl⟩
    · obtain ⟨tail, htail⟩ := sendFrameRequest_evs ts ts' f evs hg
      exact ⟨tail, by rw [htail, hsr]; rfl⟩
    · obtain ⟨tail, htail⟩ := sendFrameRequest_evs ts ts' f evs hg
      exact ⟨tail, by rw [htail, hsr]; rfl⟩
    · obtain ⟨tail, htail⟩ := sendFrameRequest_evs ts ts' f evs hg
      exact ⟨tail, by rw [htail, hsr]; rfl⟩
    · obtain ⟨tail, htail⟩ := sendFrameRequest_evs ts ts' f evs hg
      exact ⟨tail, by rw [htail, hsr]; rfl⟩
    · obtain ⟨tail, htail⟩ := handleBegin_evs ts ts' f evs hg
      exact ⟨tail, by rw [htail, hsr]; rfl⟩
    · obtain ⟨tail, htail⟩ := hcom trivial ts' evs hg
      exact ⟨tail, by rw [htail, hsr]; rfl⟩
    · obtain ⟨tail, htail⟩ := handleAbort_evs ts ts' f evs hg
      exact ⟨tail, by rw [htail, hsr]; rfl⟩
  cases fuel with
  | zero =>
    rw [connectedStep_zero] at hok
    exact main _ hok (fun _ ts1 evs1 hh => absurd hh (by simp))
  | succ n =>
    rw [connectedStep_succ] at hok
    exact main _ hok (fun _ ts1 evs1 hh => handleCommit_evs _ ts ts1 f evs1 hh)

/-- C1: for every receipted command handled in the connected state (SEND,
SUBSCRIBE, UNSUBSCRIBE, ACK, NACK, BEGIN, COMMIT, ABORT) whose frame
carries a `receipt` header, a successful step first writes the RECEIPT
frame with the matching `receipt-id` to the client, before any request is
sent to the upper layer and before any frame is stored in the transaction
store; the `receipt` header is stripped, so every frame forwarded to the
upper layer and every frame stored in the transaction store (and hence
every frame the store ever holds) carries no `receipt` header. -/
theorem receipt_before_effects (fuel : Nat) (ts ts' : TxStore) (f : Frame)
    (r : String) (evs : List Event)
    (hcmd : f.command ∈ receiptedCommands)
    (hr : f.Contains hReceipt = some r)
    (hts : tsNoReceipt ts)
    (hok : connectedStep fuel ts f = Except.ok (ts', evs)) :
    (∃ tail, evs = Event.wire (NewFrame RECEIPT [(hReceiptId, r)]) :: tail) ∧
    evsNoReceipt evs ∧ tsNoReceipt ts' :=
  ⟨connectedStep_receipt_first fuel ts ts' f r evs hcmd hr hok,
   (connectedStep_inv fuel ts f ts' evs hts hok).1,
   (connectedStep_inv fuel ts f ts' evs hts hok).2⟩

theorem receipt_before_effects_witness :
    (∃ tail,
      [Event.wire { command := "RECEIPT", headers := [("receipt-id", "r1")],
                    body := [] },
       Event.req (Request.enqueue
         { command := "SEND", headers := [("destination", "/q")], body := [] })]
        = Event.wire (NewFrame RECEIPT [(hReceiptId, "r1")]) :: tail) ∧
    evsNoReceipt
      [Event.wire { command := "RECEIPT", headers := [("receipt-id", "r1")],
                    body := [] },
       Event.req (Request.enqueue
         { command := "SEND", headers := [("destination", "/q")], body := [] })] ∧
    tsNoReceipt [] := by
  exact receipt_before_effects 1 [] []
    { command := "SEND", headers := [("destination", "/q"), ("receipt", "r1")],
      body := [] }
    "r1" _
    (by simp [receiptedCommands, SEND, SUBSCRIBE, UNSUBSCRIBE, ACK, NACK, BEGIN,
      COMMIT, ABORT])
    rfl
    (by intro p hp; simp at hp)
    rfl

/-! ## C6: message-id allocation on subscription deliveries -/

theorem hdrContains_append (hs l : List (String × String)) (k : String) :
    hdrContains (hs ++ l) k =
      (match hdrContains hs k with
       | some v => some v
       | none => hdrContains l k) := by
  induction hs with
  | nil => simp [hdrContains]
  | cons p rest ih =>
    obtain ⟨n, v⟩ := p
    by_cases h : n = k <;> simp [hdrContains, h, ih]

theorem hdrRemove_contains_ne (hs : List (String × String)) (k k' : String)
    (hk : k ≠ k') : hdrContains (hdrRemove hs k) k' = hdrContains hs k' := by
  induction hs with
  | nil => rfl
  | cons p rest ih =>
    obtain ⟨n, v⟩ := p
    by_cases h : n = k
    · have h' : ¬ n = k' := by rw [h]; exact hk
      simp [hdrRemove, hdrContains, h, h', ih, hk]
    · simp [hdrRemove, hdrContains, h, ih]

theorem hdrSet_contains_self (hs : List (String × String)) (k v : String) :
    hdrContains (hdrSet hs k v) k = some v := by
  simp [hdrSet, hdrAppend, hdrContains_append, hdrRemove_contains_self, hdrContains]

theorem hdrSet_contains_ne (hs : List (String × String)) (k v k' : String)
    (hk : k ≠ k') : hdrContains (hdrSet hs k v) k' = hdrContains hs k' := by
  rw [hdrSet, hdrAppend, hdrContains_append, hdrRemove_contains_ne hs k k' hk]
  cases h : hdrContains hs k' with
  | none => simp [hdrContains, hk]
  | some w => rfl

theorem expectedDelivery_msgId (n : Nat) (sub : Subscription) (g : Frame)
    (hg : sub.frame = some g) :
    (expectedDelivery n sub).Contains hMessageId = some (Nat.repr n) := by
  unfold expectedDelivery
  rw [hg]
  by_cases ha : sub.ack = AckMode.auto
  · simp only [ha, if_true, reduceIte]
    show hdrContains (hdrRemove (hdrSet g.headers hMessageId (Nat.repr n)) hAck)
      hMessageId = some (Nat.repr n)
    rw [hdrRemove_contains_ne _ hAck hMessageId (by decide),
      hdrSet_contains_self]
  · simp only [ha, if_false, reduceIte]
    show hdrContains (hdrSet (hdrSet g.headers hMessageId (Nat.repr n)) hAck
      (Nat.repr n)) hMessageId = some (Nat.repr n)
    rw [hdrSet_contains_ne _ hAck _ hMessageId (by decide),
      hdrSet_contains_self]

theorem expectedDelivery_ack (n : Nat) (sub : Subscription) (g : Frame)
    (hg : sub.frame = some g) :
    (expectedDelivery n sub).Contains hAck =
      (if sub.ack = AckMode.auto then none else some (Nat.repr n)) := by
  unfold expectedDelivery
  rw [hg]
  by_cases ha : sub.ack = AckMode.auto
  · simp only [ha, if_true, reduceIte]
    show hdrContains (hdrRemove (hdrSet g.headers hMessageId (Nat.repr n)) hAck)
      hAck = none
    rw [hdrRemove_contains_self]
  · simp only [ha, if_false, reduceIte]
    show hdrContains (hdrSet (hdrSet g.headers hMessageId (Nat.repr n)) hAck
      (Nat.repr n)) hAck = some (Nat.repr n)
    rw [hdrSet_contains_self]

theorem deliverSub_eq (n : Nat) (p : List Subscription) (sub : Subscription)
    (g : Frame) (hsl : sub.subList = false) (hg : sub.frame = some g)
    (hgm : g.command = MESSAGE) :
    deliverSub ⟨n, p⟩ sub =
      (if sub.ack = AckMode.auto then
        some (⟨(n + 1) % uint64Card, p⟩,
          [Event.wire (expectedDelivery ((n + 1) % uint64Card) sub),
           Event.req (Request.subscribed
             { sub with frame := some (expectedDelivery ((n + 1) % uint64Card) sub) })])
      else
        some (⟨(n + 1) % uint64Card, p ++ [{ sub with frame := some (expectedDelivery ((n + 1) % uint64Card) sub), subList := true }]⟩,
          [Event.wire (expectedDelivery ((n + 1) % uint64Card) sub)])) := by
  unfold deliverSub allocateMessageId expectedDelivery
  rw [hg]
  by_cases ha : sub.ack = AckMode.auto <;>
    simp [hgm, ha, slAdd, hsl]

theorem runDeliveries_spec :
    ∀ (subs : List Subscription) (n : Nat) (p : List Subscription),
      n < uint64Card →
      (∀ sub ∈ subs, sub.subList = false ∧
        ∃ g, sub.frame = some g ∧ g.command = MESSAGE) →
      runDeliveries ⟨n, p⟩ subs =
        some (⟨(n + subs.length) % uint64Card, p ++ expectedPending n subs⟩,
          expectedEvents n subs) := by
  intro subs
  induction subs with
  | nil =>
    intro n p hn _
    simp [runDeliveries, expectedPending, expectedEvents, Nat.mod_eq_of_lt hn]
  | cons sub rest ih =>
    intro n p hn hh
    have huPos : 0 < uint64Card := by norm_num [uint64Card]
    obtain ⟨hsl, g, hg, hgm⟩ := hh sub (List.mem_cons_self _ _)
    have hrest : ∀ s ∈ rest, s.subList = false ∧
        ∃ g, s.frame = some g ∧ g.command = MESSAGE :=
      fun s hs => hh s (List.mem_cons_of_mem _ hs)
    by_cases ha : sub.ack = AckMode.auto
    · rw [runDeliveries, deliverSub_eq n p sub g hsl hg hgm]
      simp only [ha, if_true, reduceIte]
      rw [ih ((n + 1) % uint64Card) p (Nat.mod_lt _ huPos) hrest]
      simp only [expectedPending, expectedEvents, ha, if_true, reduceIte]
      have harith : ((n + 1) % uint64Card + rest.length) % uint64Card
          = (n + (rest.length + 1)) % uint64Card := by
        rw [Nat.mod_add_mod]
        congr 1
        omega
      simp [harith]
    · rw [runDeliveries, deliverSub_eq n p sub g hsl hg hgm]
      simp only [ha, if_false, reduceIte]
      rw [ih ((n + 1) % uint64Card) _ (Nat.mod_lt _ huPos) hrest]
      simp only [expectedPending, expectedEvents, ha, if_false, reduceIte]
      have harith : ((n + 1) % uint64Card + rest.length) % uint64Card
          = (n + (rest.length + 1)) % uint64Card := by
        rw [Nat.mod_add_mod]
        congr 1
        omega
      simp [harith]

theorem wireFrames_expectedEvents_get (subs : List Subscription) :
    ∀ (n i : Nat) (hi : i < subs.length),
      (wireFrames (expectedEvents n subs)).get? i =
        some (expectedDelivery ((n + i + 1) % uint64Card) (subs.get ⟨i, hi⟩)) := by
  induction subs with
  | nil =>
    intro n i hi
    simp at hi
  | cons sub rest ih =>
    intro n i hi
    have hhead : wireFrames (expectedEvents n (sub :: rest)) =
        expectedDelivery ((n + 1) % uint64Card) sub
          :: wireFrames (expectedEvents ((n + 1) % uint64Card) rest) := by
      by_cases ha : sub.ack = AckMode.auto <;>
        simp [expectedEvents, wireFrames, ha]
    rw [hhead]
    cases i with
    | zero => simp
    | succ j =>
      have hj : j < rest.length := by simpa using hi
      have hrec := ih ((n + 1) % uint64Card) j hj
      simp only [List.get?_cons_succ]
      rw [hrec]
      have harith : ((n + 1) % uint64Card + j + 1) % uint64Card
          = (n + (j + 1) + 1) % uint64Card := by
        have hstep : (n + 1) % uint64Card + j + 1
            = (n + 1) % uint64Card + (j + 1) := by omega
        rw [hstep, Nat.mod_add_mod]
        congr 1
        omega
      simp [harith]

/-- C6 (amended): for a sequence of fewer than `2 ^ 64` subscription
deliveries processed by one session starting from a fresh counter, each
delivered MESSAGE frame gets `message-id` from the incrementing `uint64`
counter, so the i-th delivery carries message-id `i + 1` — the ids are
strictly increasing decimal integers starting at 1 for as long as the
counter has not wrapped.  For an `auto` subscription the `ack` header is
removed and a `subscribed` request is sent to the upper layer; otherwise
the `ack` header equals the message-id and the subscription is pushed
onto the pending-ack list (the `expectedEvents`/`expectedPending`
equations record exactly these effects). -/
theorem subscription_delivery_ids (subs : List Subscription)
    (h : ∀ sub ∈ subs, sub.subList = false ∧
      ∃ g, sub.frame = some g ∧ g.command = MESSAGE)
    (hlen : subs.length < uint64Card) :
    runDeliveries ⟨0, []⟩ subs =
      some (⟨subs.length, expectedPending 0 subs⟩, expectedEvents 0 subs) ∧
    ∀ (i : Nat) (hi : i < subs.length),
      (wireFrames (expectedEvents 0 subs)).get? i =
        some (expectedDelivery (i + 1) (subs.get ⟨i, hi⟩)) ∧
      (expectedDelivery (i + 1) (subs.get ⟨i, hi⟩)).Contains hMessageId =
        some (Nat.repr (i + 1)) ∧
      (expectedDelivery (i + 1) (subs.get ⟨i, hi⟩)).Contains hAck =
        (if (subs.get ⟨i, hi⟩).ack = AckMode.auto then none
         else some (Nat.repr (i + 1))) := by
  constructor
  · have huPos : 0 < uint64Card := by norm_num [uint64Card]
    have hrun := runDeliveries_spec subs 0 [] huPos h
    simpa [Nat.mod_eq_of_lt hlen] using hrun
  · intro i hi
    obtain ⟨hsl, g, hg, hgm⟩ := h (subs.get ⟨i, hi⟩) (subs.get_mem _ _)
    refine ⟨?_, expectedDelivery_msgId (i + 1) _ g hg,
      expectedDelivery_ack (i + 1) _ g hg⟩
    have hget := wireFrames_expectedEvents_get subs 0 i hi
    have hilt : i + 1 < uint64Card := by omega
    simpa [Nat.mod_eq_of_lt hilt] using hget

theorem subscription_delivery_ids_witness :
    runDeliveries ⟨0, []⟩ [subClientEx, subAutoEx] =
      some (⟨2, expectedPending 0 [subClientEx, subAutoEx]⟩,
        expectedEvents 0 [subClientEx, subAutoEx]) := by
  exact (subscription_delivery_ids _ (by
    intro sub hsub
    rcases List.mem_cons.mp hsub with hh | hh
    · subst hh
      exact ⟨rfl, _, rfl, rfl⟩
    · rcases List.mem_cons.mp hh with hh2 | hh2
      · subst hh2
        exact ⟨rfl, _, rfl, rfl⟩
      · simp at hh2) (by norm_num [uint64Card])).1

/-- C6 counterexample: the `lastMsgId` counter is a `uint64` and wraps at
`2 ^ 64`.  At the explicit input `List.replicate uint64Card subAutoEx` —
a fresh session delivering `2 ^ 64` MESSAGE frames — the counter ends
back at 0, the first delivered frame carries message-id "1" but the last
carries message-id "0": a later message-id (0) is smaller than an earlier
one (1), so the message-id values of one session are not strictly
monotonically increasing, refuting the claim as stated for arbitrary
delivery sequences. -/
theorem message_id_wraps :
    runDeliveries ⟨0, []⟩ (List.replicate uint64Card subAutoEx) =
      some (⟨0, expectedPending 0 (List.replicate uint64Card subAutoEx)⟩,
        expectedEvents 0 (List.replicate uint64Card subAutoEx)) ∧
    (wireFrames (expectedEvents 0 (List.replicate uint64Card subAutoEx))).get? 0 =
      some (expectedDelivery 1 subAutoEx) ∧
    (expectedDelivery 1 subAutoEx).Contains hMessageId = some "1" ∧
    (wireFrames (expectedEvents 0 (List.replicate uint64Card subAutoEx))).get?
        (uint64Card - 1) =
      some (expectedDelivery 0 subAutoEx) ∧
    (expectedDelivery 0 subAutoEx).Contains hMessageId = some "0" := by
  have huPos : 0 < uint64Card := by norm_num [uint64Card]
  have hmem : ∀ sub ∈ List.replicate uint64Card subAutoEx, sub.subList = false ∧
      ∃ g, sub.frame = some g ∧ g.command = MESSAGE := by
    intro sub hsub
    rw [List.eq_of_mem_replicate hsub]
    exact ⟨rfl, _, rfl, rfl⟩
  refine ⟨?_, ?_, ?_, ?_, ?_⟩
  · have hrun := runDeliveries_spec (List.replicate uint64Card subAutoEx) 0 []
      huPos hmem
    rw [List.length_replicate, Nat.zero_add, Nat.mod_self, List.nil_append] at hrun
    exact hrun
  · have h0 : (0:Nat) < (List.replicate uint64Card subAutoEx).length := by
      rw [List.length_replicate]
      exact huPos
    have hget := wireFrames_expectedEvents_get
      (List.replicate uint64Card subAutoEx) 0 0 h0
    rw [List.get_replicate] at hget
    have h1 : (0 + 0 + 1) % uint64Card = 1 :=
      Nat.mod_eq_of_lt (by norm_num [uint64Card])
    rw [h1] at hget
    exact hget
  · rw [expectedDelivery_msgId 1 subAutoEx _ rfl]
    rfl
  · have hM1 : uint64Card - 1 < (List.replicate uint64Card subAutoEx).length := by
      rw [List.length_replicate]
      omega
    have hget := wireFrames_expectedEvents_get
      (List.replicate uint64Card subAutoEx) 0 (uint64Card - 1) hM1
    rw [List.get_replicate] at hget
    have h2 : (0 + (uint64Card - 1) + 1) % uint64Card = 0 := by
      have hsum : 0 + (uint64Card - 1) + 1 = uint64Card := by omega
      rw [hsum, Nat.mod_self]
    rw [h2] at hget
    exact hget
  · rw [expectedDelivery_msgId 0 subAutoEx _ rfl]
    rfl

/-! ## C2: accept-version negotiation -/

theorem charListLe_total :
    ∀ x y : List Char, charListLe x y = true ∨ charListLe y x = true := by
  intro x
  induction x with
  | nil => intro y; left; rfl
  | cons a as ih =>
    intro y
    cases y with
    | nil => right; rfl
    | cons b bs =>
      rcases Nat.lt_trichotomy a.toNat b.toNat with h | h | h
      · left
        simp [charListLe, h]
      · have h1 : ¬ a.toNat < b.toNat := by omega
        have h2 : ¬ b.toNat < a.toNat := by omega
        rcases ih bs with hh | hh
        · left
          simp [charListLe, h1, h2, hh]
        · right
          simp [charListLe, h1, h2, hh]
      · right
        simp [charListLe, h]

theorem charListLe_trans :
    ∀ x y z : List Char, charListLe x y = true → charListLe y z = true →
      charListLe x z = true := by
  intro x
  induction x with
  | nil => intro y z _ _; rfl
  | cons a as ih =>
    intro y z hxy hyz
    cases y with
    | nil => simp [charListLe] at hxy
    | cons b bs =>
      cases z with
      | nil => simp [charListLe] at hyz
      | cons c cs =>
        rcases Nat.lt_trichotomy a.toNat b.toNat with hab | hab | hab
        · rcases Nat.lt_trichotomy b.toNat c.toNat with hbc | hbc | hbc
          · simp [charListLe, Nat.lt_trans hab hbc]
          · have hac : a.toNat < c.toNat := by omega
            simp [charListLe, hac]
          · have hb1 : ¬ b.toNat < c.toNat := by omega
            simp [charListLe, hb1, hbc] at hyz
        · rcases Nat.lt_trichotomy b.toNat c.toNat with hbc | hbc | hbc
          · have hac : a.toNat < c.toNat := by omega
            simp [charListLe, hac]
          · have ha1 : ¬ a.toNat < b.toNat := by omega
            have ha2 : ¬ b.toNat < a.toNat := by omega
            have hb1 : ¬ b.toNat < c.toNat := by omega
            have hb2 : ¬ c.toNat < b.toNat := by omega
            have hc1 : ¬ a.toNat < c.toNat := by omega
            have hc2 : ¬ c.toNat < a.toNat := by omega
            simp [charListLe, ha1, ha2] at hxy
            simp [charListLe, hb1, hb2] at hyz
            simp [charListLe, hc1, hc2]
            exact ih bs cs hxy hyz
          · have hb1 : ¬ b.toNat < c.toNat := by omega
            simp [charListLe, hb1, hbc] at hyz
        · have ha1 : ¬ a.toNat < b.toNat := by omega
          simp [charListLe, ha1, hab] at hxy

instance : IsTotal String strLe :=
  ⟨fun a b => charListLe_total a.data b.data⟩

instance : IsTrans String strLe :=
  ⟨fun a b c hab hbc => charListLe_trans a.data b.data c.data hab hbc⟩

theorem versionScan_sorted :
    ∀ l : List String, l.Sorted strLe →
      ∀ acc, versionScan acc l = chainOf l acc := by
  intro l
  induction l with
  | nil =>
    intro _ acc
    simp [versionScan, chainOf]
  | cons x xs ih =>
    intro hs acc
    have hx : ∀ y ∈ xs, strLe x y := (List.sorted_cons.mp hs).1
    have hxs : xs.Sorted strLe := (List.sorted_cons.mp hs).2
    simp only [versionScan]
    by_cases h2 : x = "1.2"
    · subst h2
      rw [show (match recognizedOf "1.2" with
                | some ver => Except.ok ver
                | none => acc) = Except.ok StompVersion.V1_2 from rfl]
      rw [ih hxs]
      have h11 : "1.1" ∉ xs := fun hmem => absurd (hx _ hmem) (by decide)
      have h10 : "1.0" ∉ xs := fun hmem => absurd (hx _ hmem) (by decide)
      simp [chainOf, h11, h10, List.mem_cons]
    · by_cases h1 : x = "1.1"
      · subst h1
        rw [show (match recognizedOf "1.1" with
                  | some ver => Except.ok ver
                  | none => acc) = Except.ok StompVersion.V1_1 from rfl]
        rw [ih hxs]
        have h10 : "1.0" ∉ xs := fun hmem => absurd (hx _ hmem) (by decide)
        simp only [chainOf, List.mem_cons, h10, or_false]
        by_cases m2 : "1.2" ∈ xs <;> simp [m2]
      · by_cases h0 : x = "1.0"
        · subst h0
          rw [show (match recognizedOf "1.0" with
                    | some ver => Except.ok ver
                    | none => acc) = Except.ok StompVersion.V1_0 from rfl]
          rw [ih hxs]
          simp only [chainOf, List.mem_cons]
          by_cases m2 : "1.2" ∈ xs <;> by_cases m1 : "1.1" ∈ xs <;>
            simp [m2, m1]
        · have hr : recognizedOf x = none := by
            simp [recognizedOf, h0, h1, h2]
          rw [show (match recognizedOf x with
                    | some ver => Except.ok ver
                    | none => acc) = acc by rw [hr]]
          rw [ih hxs]
          have h2' : ¬ ("1.2" = x) := fun hh => h2 hh.symm
          have h1' : ¬ ("1.1" = x) := fun hh => h1 hh.symm
          have h0' : ¬ ("1.0" = x) := fun hh => h0 hh.symm
          simp [chainOf, List.mem_cons, h2', h1', h0']

theorem stepMax_eq (x y : String)
    (hx : x = "1.0" ∨ x = "1.1" ∨ x = "1.2")
    (hy : y = "1.0" ∨ y = "1.1" ∨ y = "1.2") :
    (if charListLe x.data y.data then y else x) =
      (if "1.2" = x ∨ "1.2" = y then "1.2"
       else if "1.1" = x ∨ "1.1" = y then "1.1"
       else "1.0") := by
  rcases hx with h | h | h <;> rcases hy with g | g | g <;> subst h <;> subst g <;>
    rfl

theorem lexMaxStr_chain :
    ∀ (xs : List String) (x : String),
      (x = "1.0" ∨ x = "1.1" ∨ x = "1.2") →
      (∀ w ∈ xs, w = "1.0" ∨ w = "1.1" ∨ w = "1.2") →
      lexMaxStr x xs =
        (if "1.2" = x ∨ "1.2" ∈ xs then "1.2"
         else if "1.1" = x ∨ "1.1" ∈ xs then "1.1"
         else "1.0") := by
  intro xs
  induction xs with
  | nil =>
    intro x hx _
    rcases hx with h | h | h <;> subst h <;> rfl
  | cons y ys ih =>
    intro x hx hall
    have hy := hall y (List.mem_cons_self _ _)
    have hys : ∀ w ∈ ys, w = "1.0" ∨ w = "1.1" ∨ w = "1.2" :=
      fun w hw => hall w (List.mem_cons_of_mem _ hw)
    rw [show lexMaxStr x (y :: ys) =
      lexMaxStr (if charListLe x.data y.data then y else x) ys from rfl]
    rw [stepMax_eq x y hx hy]
    by_cases c2 : "1.2" = x ∨ "1.2" = y
    · rw [if_pos c2]
      rw [ih "1.2" (by right; right; rfl) hys]
      have hcond : "1.2" = x ∨ "1.2" = y ∨ "1.2" ∈ ys := by
        rcases c2 with h | h
        · exact Or.inl h
        · exact Or.inr (Or.inl h)
      simp [List.mem_cons, hcond]
    · rw [if_neg c2]
      push_neg at c2
      by_cases c1 : "1.1" = x ∨ "1.1" = y
      · rw [if_pos c1]
        rw [ih "1.1" (by right; left; rfl) hys]
        have hcond1 : "1.1" = x ∨ "1.1" = y ∨ "1.1" ∈ ys := by
          rcases c1 with h | h
          · exact Or.inl h
          · exact Or.inr (Or.inl h)
        simp [List.mem_cons, c2.1, c2.2, hcond1]
      · rw [if_neg c1]
        push_neg at c1
        rw [ih "1.0" (by left; rfl) hys]
        simp [List.mem_cons, c2.1, c2.2, c1.1, c1.2]

theorem lexGreatestRecognized_chain (l : List String) :
    lexGreatestRecognized l =
      (if "1.2" ∈ l then some StompVersion.V1_2
       else if "1.1" ∈ l then some StompVersion.V1_1
       else if "1.0" ∈ l then some StompVersion.V1_0
       else none) := by
  unfold lexGreatestRecognized
  have hmem : ∀ s : String, (recognizedOf s).isSome = true →
      (s ∈ l.filter (fun w => (recognizedOf w).isSome) ↔ s ∈ l) := by
    intro s hs
    rw [List.mem_filter]
    exact ⟨fun h => h.1, fun h => ⟨h, hs⟩⟩
  have hall : ∀ w ∈ l.filter (fun w => (recognizedOf w).isSome),
      w = "1.0" ∨ w = "1.1" ∨ w = "1.2" := by
    intro w hw
    have hw2 := (List.mem_filter.mp hw).2
    by_cases h0 : w = "1.0"
    · exact Or.inl h0
    · by_cases h1 : w = "1.1"
      · exact Or.inr (Or.inl h1)
      · by_cases h2 : w = "1.2"
        · exact Or.inr (Or.inr h2)
        · rw [show recognizedOf w = none by simp [recognizedOf, h0, h1, h2]] at hw2
          simp at hw2
  cases hlf : l.filter (fun w => (recognizedOf w).isSome) with
  | nil =>
    have h2 : "1.2" ∉ l := fun hh => by
      have hmm := (hmem "1.2" rfl).mpr hh
      rw [hlf] at hmm
      simp at hmm
    have h1 : "1.1" ∉ l := fun hh => by
      have hmm := (hmem "1.1" rfl).mpr hh
      rw [hlf] at hmm
      simp at hmm
    have h0 : "1.0" ∉ l := fun hh => by
      have hmm := (hmem "1.0" rfl).mpr hh
      rw [hlf] at hmm
      simp at hmm
    simp [h2, h1, h0]
  | cons x xs =>
    have hx : x = "1.0" ∨ x = "1.1" ∨ x = "1.2" :=
      hall x (by rw [hlf]; exact List.mem_cons_self _ _)
    have hxs : ∀ w ∈ xs, w = "1.0" ∨ w = "1.1" ∨ w = "1.2" :=
      fun w hw => hall w (by rw [hlf]; exact List.mem_cons_of_mem _ hw)
    dsimp only
    rw [lexMaxStr_chain xs x hx hxs]
    by_cases c2 : "1.2" = x ∨ "1.2" ∈ xs
    · rw [if_pos c2]
      have hl2 : "1.2" ∈ l := by
        refine (hmem "1.2" rfl).mp ?_
        rw [hlf]
        rcases c2 with h | h
        · exact List.mem_cons.mpr (Or.inl h)
        · exact List.mem_cons.mpr (Or.inr h)
      simp [hl2, recognizedOf]
    · rw [if_neg c2]
      have hl2 : "1.2" ∉ l := fun hh => by
        have hmm := (hmem "1.2" rfl).mpr hh
        rw [hlf] at hmm
        rcases List.mem_cons.mp hmm with h | h
        · exact c2 (Or.inl h)
        · exact c2 (Or.inr h)
      by_cases c1 : "1.1" = x ∨ "1.1" ∈ xs
      · rw [if_pos c1]
        have hl1 : "1.1" ∈ l := by
          refine (hmem "1.1" rfl).mp ?_
          rw [hlf]
          rcases c1 with h | h
          · exact List.mem_cons.mpr (Or.inl h)
          · exact List.mem_cons.mpr (Or.inr h)
        simp [hl2, hl1, recognizedOf]
      · rw [if_neg c1]
        have hl1 : "1.1" ∉ l := fun hh => by
          have hmm := (hmem "1.1" rfl).mpr hh
          rw [hlf] at hmm
          rcases List.mem_cons.mp hmm with h | h
          · exact c1 (Or.inl h)
          · exact c1 (Or.inr h)
        have hx0 : x = "1.0" := by
          rcases hx with h | h | h
          · exact h
          · exact absurd (Or.inl h.symm) c1
          · exact absurd (Or.inl h.symm) c2
        have hl0 : "1.0" ∈ l := by
          refine (hmem "1.0" rfl).mp ?_
          rw [hlf]
          exact List.mem_cons.mpr (Or.inl hx0.symm)
        simp [hl2, hl1, hl0, recognizedOf]

/-- C2: `AcceptVersion` coincides with its specification: for CONNECT or
STOMP frames it returns the lexicographically greatest recognized version
among the comma-separated entries of the `accept-version` header; an
absent header defaults to V1.0 for CONNECT and fails with
`missingHeader(accept-version)` for STOMP; a header with no recognized
entry fails with `unknownVersion`; any other command fails with
`notConnectFrame`. -/
theorem acceptVersion_refines (f : Frame) : f.AcceptVersion = acceptVersionSpec f := by
  unfold Frame.AcceptVersion acceptVersionSpec
  by_cases hc : f.command ≠ CONNECT ∧ f.command ≠ STOMP
  · rw [if_pos hc, if_pos hc]
  · rw [if_neg hc, if_neg hc]
    cases hv : f.Contains hAcceptVersion with
    | none => rfl
    | some av =>
      dsimp only
      rw [versionScan_sorted _ (List.sorted_insertionSort strLe _) _]
      rw [lexGreatestRecognized_chain]
      simp only [chainOf, List.mem_insertionSort]
      by_cases m2 : "1.2" ∈ splitOnComma av
      · simp [m2]
      · by_cases m1 : "1.1" ∈ splitOnComma av
        · simp [m2, m1]
        · by_cases m0 : "1.0" ∈ splitOnComma av
          · simp [m2, m1, m0]
          · simp [m2, m1, m0]

end Stomp
